import Mathlib

/-!
Verification of the HUGR core against its specification.

This file gives a shallow embedding of the parts of the repository that the
checked properties talk about:

* `Hugr.Simple` — the data types of `src/types/simple.rs` (`SimpleType`,
  `ClassicType`, `QuantumType`, `TypeRow` and its predicates).
* `Hugr.Tck` — the constant type checker of `src/hugr/typecheck.rs` together
  with the type/value shapes it consumes.
* `Hugr.Ext` — extension sets, extensions and the registry of
  `src/extension.rs`.
* `Hugr.Subg` — the sibling-subgraph validation and replacement engine of
  `src/hugr/views/sibling_subgraph.rs`.
* `Hugr.Cfg` — the CFG builder of `src/builder/cfg.rs` over a small mutable
  HUGR state.

Rust panics (`panic!`, `unwrap`, `unimplemented!`, `zip_eq`) are modelled by a
dedicated `panicked` outcome of the result type `PRes`, so that properties of
the form "returns an error value and does not panic" are statable.
-/

namespace Hugr

/-- Result of running a fallible Rust function that may also panic:
`ok` mirrors `Result::Ok`, `err` mirrors `Result::Err`, and `panicked`
mirrors a Rust panic (from `panic!`, `Option::unwrap`, `unimplemented!`,
or `Itertools::zip_eq` on rows of different lengths). -/
inductive PRes (ε : Type) (α : Type) where
  | ok (a : α)
  | err (e : ε)
  | panicked
deriving DecidableEq

namespace Simple

/-- Quantum (linear) types, from `QuantumType` in `src/types/simple.rs`. -/
inductive QuantumType where
  | Qubit
  | Money
  | Array (t : QuantumType) (size : Nat)
deriving DecidableEq

/-- Payload of `ClassicType::Graph`: a `(ResourceSet, Signature)` pair.
The `Signature` type itself lives in a source file that is not part of the
sample; the payload is never inspected by the functions verified here, so it
is carried as an uninterpreted token. -/
structure GraphPayload where
  token : Nat
deriving DecidableEq

mutual

/-- A concrete dataflow type, from `SimpleType` in `src/types/simple.rs`. -/
inductive SimpleType where
  | Classic (t : ClassicType)
  | Quantum (t : QuantumType)

/-- A concrete classical type, from `ClassicType` in `src/types/simple.rs`.
`Opaque` carries a `CustomType`, modelled by its name. -/
inductive ClassicType where
  | Variable (name : String)
  | Nat
  | Int
  | Bit
  | Graph (g : GraphPayload)
  | Pair (a : ClassicType) (b : ClassicType)
  | List (t : ClassicType)
  | Map (k : ClassicType) (v : ClassicType)
  | Struct (row : List SimpleType)
  | OpaqueTy (custom : String)

end

/- Decidable equality for `SimpleType` and `ClassicType`: structural, as
derived by the `PartialEq, Eq` derive in the source. -/
mutual

def simpleTypeBEq : SimpleType → SimpleType → Bool
  | .Classic a, .Classic b => classicTypeBEq a b
  | .Quantum a, .Quantum b => a == b
  | _, _ => false

def classicTypeBEq : ClassicType → ClassicType → Bool
  | .Variable a, .Variable b => a == b
  | .Nat, .Nat => true
  | .Int, .Int => true
  | .Bit, .Bit => true
  | .Graph a, .Graph b => a == b
  | .Pair a b, .Pair c d => classicTypeBEq a c && classicTypeBEq b d
  | .List a, .List b => classicTypeBEq a b
  | .Map a b, .Map c d => classicTypeBEq a c && classicTypeBEq b d
  | .Struct a, .Struct b => rowBEq a b
  | .OpaqueTy a, .OpaqueTy b => a == b
  | _, _ => false

def rowBEq : List SimpleType → List SimpleType → Bool
  | [], [] => true
  | a :: as0, b :: bs0 => simpleTypeBEq a b && rowBEq as0 bs0
  | _, _ => false

end

mutual

theorem simpleTypeBEq_iff : ∀ a b : SimpleType, simpleTypeBEq a b = true ↔ a = b
  | .Classic a, .Classic b => by
      simp only [simpleTypeBEq, SimpleType.Classic.injEq]
      exact classicTypeBEq_iff a b
  | .Classic _, .Quantum _ => by simp [simpleTypeBEq]
  | .Quantum _, .Classic _ => by simp [simpleTypeBEq]
  | .Quantum a, .Quantum b => by
      simp [simpleTypeBEq, beq_iff_eq]

theorem classicTypeBEq_iff : ∀ a b : ClassicType, classicTypeBEq a b = true ↔ a = b
  | .Variable a, .Variable b => by simp [classicTypeBEq, beq_iff_eq]
  | .Nat, .Nat => by simp [classicTypeBEq]
  | .Int, .Int => by simp [classicTypeBEq]
  | .Bit, .Bit => by simp [classicTypeBEq]
  | .Graph a, .Graph b => by simp [classicTypeBEq, beq_iff_eq]
  | .Pair a b, .Pair c d => by
      simp only [classicTypeBEq, Bool.and_eq_true, ClassicType.Pair.injEq]
      exact and_congr (classicTypeBEq_iff a c) (classicTypeBEq_iff b d)
  | .List a, .List b => by
      simp only [classicTypeBEq, ClassicType.List.injEq]
      exact classicTypeBEq_iff a b
  | .Map a b, .Map c d => by
      simp only [classicTypeBEq, Bool.and_eq_true, ClassicType.Map.injEq]
      exact and_congr (classicTypeBEq_iff a c) (classicTypeBEq_iff b d)
  | .Struct a, .Struct b => by
      simp only [classicTypeBEq, ClassicType.Struct.injEq]
      exact rowBEq_iff a b
  | .OpaqueTy a, .OpaqueTy b => by simp [classicTypeBEq, beq_iff_eq]
  | .Variable _, .Nat => by simp [classicTypeBEq]
  | .Variable _, .Int => by simp [classicTypeBEq]
  | .Variable _, .Bit => by simp [classicTypeBEq]
  | .Variable _, .Graph _ => by simp [classicTypeBEq]
  | .Variable _, .Pair _ _ => by simp [classicTypeBEq]
  | .Variable _, .List _ => by simp [classicTypeBEq]
  | .Variable _, .Map _ _ => by simp [classicTypeBEq]
  | .Variable _, .Struct _ => by simp [classicTypeBEq]
  | .Variable _, .OpaqueTy _ => by simp [classicTypeBEq]
  | .Nat, .Variable _ => by simp [classicTypeBEq]
  | .Nat, .Int => by simp [classicTypeBEq]
  | .Nat, .Bit => by simp [classicTypeBEq]
  | .Nat, .Graph _ => by simp [classicTypeBEq]
  | .Nat, .Pair _ _ => by simp [classicTypeBEq]
  | .Nat, .List _ => by simp [classicTypeBEq]
  | .Nat, .Map _ _ => by simp [classicTypeBEq]
  | .Nat, .Struct _ => by simp [classicTypeBEq]
  | .Nat, .OpaqueTy _ => by simp [classicTypeBEq]
  | .Int, .Variable _ => by simp [classicTypeBEq]
  | .Int, .Nat => by simp [classicTypeBEq]
  | .Int, .Bit => by simp [classicTypeBEq]
  | .Int, .Graph _ => by simp [classicTypeBEq]
  | .Int, .Pair _ _ => by simp [classicTypeBEq]
  | .Int, .List _ => by simp [classicTypeBEq]
  | .Int, .Map _ _ => by simp [classicTypeBEq]
  | .Int, .Struct _ => by simp [classicTypeBEq]
  | .Int, .OpaqueTy _ => by simp [classicTypeBEq]
  | .Bit, .Variable _ => by simp [classicTypeBEq]
  | .Bit, .Nat => by simp [classicTypeBEq]
  | .Bit, .Int => by simp [classicTypeBEq]
  | .Bit, .Graph _ => by simp [classicTypeBEq]
  | .Bit, .Pair _ _ => by simp [classicTypeBEq]
  | .Bit, .List _ => by simp [classicTypeBEq]
  | .Bit, .Map _ _ => by simp [classicTypeBEq]
  | .Bit, .Struct _ => by simp [classicTypeBEq]
  | .Bit, .OpaqueTy _ => by simp [classicTypeBEq]
  | .Graph _, .Variable _ => by simp [classicTypeBEq]
  | .Graph _, .Nat => by simp [classicTypeBEq]
  | .Graph _, .Int => by simp [classicTypeBEq]
  | .Graph _, .Bit => by simp [classicTypeBEq]
  | .Graph _, .Pair _ _ => by simp [classicTypeBEq]
  | .Graph _, .List _ => by simp [classicTypeBEq]
  | .Graph _, .Map _ _ => by simp [classicTypeBEq]
  | .Graph _, .Struct _ => by simp [classicTypeBEq]
  | .Graph _, .OpaqueTy _ => by simp [classicTypeBEq]
  | .Pair _ _, .Variable _ => by simp [classicTypeBEq]
  | .Pair _ _, .Nat => by simp [classicTypeBEq]
  | .Pair _ _, .Int => by simp [classicTypeBEq]
  | .Pair _ _, .Bit => by simp [classicTypeBEq]
  | .Pair _ _, .Graph _ => by simp [classicTypeBEq]
  | .Pair _ _, .List _ => by simp [classicTypeBEq]
  | .Pair _ _, .Map _ _ => by simp [classicTypeBEq]
  | .Pair _ _, .Struct _ => by simp [classicTypeBEq]
  | .Pair _ _, .OpaqueTy _ => by simp [classicTypeBEq]
  | .List _, .Variable _ => by simp [classicTypeBEq]
  | .List _, .Nat => by simp [classicTypeBEq]
  | .List _, .Int => by simp [classicTypeBEq]
  | .List _, .Bit => by simp [classicTypeBEq]
  | .List _, .Graph _ => by simp [classicTypeBEq]
  | .List _, .Pair _ _ => by simp [classicTypeBEq]
  | .List _, .Map _ _ => by simp [classicTypeBEq]
  | .List _, .Struct _ => by simp [classicTypeBEq]
  | .List _, .OpaqueTy _ => by simp [classicTypeBEq]
  | .Map _ _, .Variable _ => by simp [classicTypeBEq]
  | .Map _ _, .Nat => by simp [classicTypeBEq]
  | .Map _ _, .Int => by simp [classicTypeBEq]
  | .Map _ _, .Bit => by simp [classicTypeBEq]
  | .Map _ _, .Graph _ => by simp [classicTypeBEq]
  | .Map _ _, .Pair _ _ => by simp [classicTypeBEq]
  | .Map _ _, .List _ => by simp [classicTypeBEq]
  | .Map _ _, .Struct _ => by simp [classicTypeBEq]
  | .Map _ _, .OpaqueTy _ => by simp [classicTypeBEq]
  | .Struct _, .Variable _ => by simp [classicTypeBEq]
  | .Struct _, .Nat => by simp [classicTypeBEq]
  | .Struct _, .Int => by simp [classicTypeBEq]
  | .Struct _, .Bit => by simp [classicTypeBEq]
  | .Struct _, .Graph _ => by simp [classicTypeBEq]
  | .Struct _, .Pair _ _ => by simp [classicTypeBEq]
  | .Struct _, .List _ => by simp [classicTypeBEq]
  | .Struct _, .Map _ _ => by simp [classicTypeBEq]
  | .Struct _, .OpaqueTy _ => by simp [classicTypeBEq]
  | .OpaqueTy _, .Variable _ => by simp [classicTypeBEq]
  | .OpaqueTy _, .Nat => by simp [classicTypeBEq]
  | .OpaqueTy _, .Int => by simp [classicTypeBEq]
  | .OpaqueTy _, .Bit => by simp [classicTypeBEq]
  | .OpaqueTy _, .Graph _ => by simp [classicTypeBEq]
  | .OpaqueTy _, .Pair _ _ => by simp [classicTypeBEq]
  | .OpaqueTy _, .List _ => by simp [classicTypeBEq]
  | .OpaqueTy _, .Map _ _ => by simp [classicTypeBEq]
  | .OpaqueTy _, .Struct _ => by simp [classicTypeBEq]

theorem rowBEq_iff : ∀ a b : List SimpleType, rowBEq a b = true ↔ a = b
  | [], [] => by simp [rowBEq]
  | [], _ :: _ => by simp [rowBEq]
  | _ :: _, [] => by simp [rowBEq]
  | a :: as0, b :: bs0 => by
      simp only [rowBEq, Bool.and_eq_true, List.cons.injEq]
      exact and_congr (simpleTypeBEq_iff a b) (rowBEq_iff as0 bs0)

end

instance : DecidableEq SimpleType := fun a b =>
  decidable_of_iff (simpleTypeBEq a b = true) (simpleTypeBEq_iff a b)

instance : DecidableEq ClassicType := fun a b =>
  decidable_of_iff (classicTypeBEq a b = true) (classicTypeBEq_iff a b)

/-- From `SimpleType::is_linear` in `src/types/simple.rs`:
`matches!(self, Self::Quantum(_))`. -/
def SimpleType.is_linear : SimpleType → Bool
  | .Quantum _ => true
  | _ => false

/-- From `SimpleType::is_classical` in `src/types/simple.rs`:
`matches!(self, Self::Classic(_))`. -/
def SimpleType.is_classical : SimpleType → Bool
  | .Classic _ => true
  | _ => false

/-- A `TypeRow`, from `src/types/simple.rs`: a list of `SimpleType`s. -/
structure TypeRow where
  types : List SimpleType
deriving DecidableEq

/-- From `TypeRow::purely_linear` in `src/types/simple.rs`:
`self.types.iter().all(|typ| typ.is_linear())`. -/
def TypeRow.purely_linear (r : TypeRow) : Bool :=
  r.types.all fun typ => typ.is_linear

/-- From `TypeRow::purely_classical` in `src/types/simple.rs`, verbatim
including the leading negation in the source:
`!self.types.iter().all(SimpleType::is_classical)`. -/
def TypeRow.purely_classical (r : TypeRow) : Bool :=
  !(r.types.all SimpleType.is_classical)

end Simple

namespace Tck

/- Types consumed by `src/hugr/typecheck.rs`. The repository sample does not
include the source file defining this (newer) `ClassicType`; the shapes below
are reconstructed from the constructor patterns used in `typecheck.rs` itself
(`ClassicType::Hashable`, `HashableType::Int`, `Container::Tuple`, ...). -/

mutual

/-- Hashable classical types (`HashableType` as used by `typecheck.rs`). -/
inductive HashableType where
  | Variable (s : String)
  | Int (width : Nat)
  | Str
  | Container (c : ContainerH)

/-- The container shape `Container<HashableType>`: the variants matched by
`map_vals` in `typecheck.rs` (`List`, `Map`, `Tuple`, `Sum`, `Array`,
`Alias`, `Opaque`). -/
inductive ContainerH where
  | List (t : HashableType)
  | Map (k : HashableType) (v : HashableType)
  | Tuple (row : List HashableType)
  | Sum (row : List HashableType)
  | Array (t : HashableType) (size : Nat)
  | Alias (s : String)
  | OpaqueC (custom : String)

end

mutual

/-- Classical types (`ClassicType` as used by `typecheck.rs`): the variants
matched there are `Hashable`, `F64`, `Container` and `Graph`. The `Graph`
payload is never inspected by `typecheck_const`, so it is an uninterpreted
token. -/
inductive ClassicType where
  | Hashable (h : HashableType)
  | F64
  | Graph (g : Nat)
  | Container (c : ContainerC)

/-- The container shape `Container<ClassicType>`. -/
inductive ContainerC where
  | List (t : ClassicType)
  | Map (k : HashableType) (v : ClassicType)
  | Tuple (row : List ClassicType)
  | Sum (row : List ClassicType)
  | Array (t : ClassicType) (size : Nat)
  | Alias (s : String)
  | OpaqueC (custom : String)

end

/-- A classical row (`ClassicRow = TypeRow<ClassicType>`). -/
abbrev ClassicRow := List ClassicType

/- Structural equality functions mirroring the derived `PartialEq` of the
source types (used by `typecheck_const` to compare rows). -/

mutual

def hashBEq : HashableType → HashableType → Bool
  | .Variable a, .Variable b => a == b
  | .Int a, .Int b => a == b
  | .Str, .Str => true
  | .Container a, .Container b => contHBEq a b
  | _, _ => false

def contHBEq : ContainerH → ContainerH → Bool
  | .List a, .List b => hashBEq a b
  | .Map a b, .Map c d => hashBEq a c && hashBEq b d
  | .Tuple a, .Tuple b => rowHBEq a b
  | .Sum a, .Sum b => rowHBEq a b
  | .Array a n, .Array b m => hashBEq a b && n == m
  | .Alias a, .Alias b => a == b
  | .OpaqueC a, .OpaqueC b => a == b
  | _, _ => false

def rowHBEq : List HashableType → List HashableType → Bool
  | [], [] => true
  | a :: as0, b :: bs0 => hashBEq a b && rowHBEq as0 bs0
  | _, _ => false

end

mutual

def ctyBEq : ClassicType → ClassicType → Bool
  | .Hashable a, .Hashable b => hashBEq a b
  | .F64, .F64 => true
  | .Graph a, .Graph b => a == b
  | .Container a, .Container b => contCBEq a b
  | _, _ => false

def contCBEq : ContainerC → ContainerC → Bool
  | .List a, .List b => ctyBEq a b
  | .Map a b, .Map c d => hashBEq a c && ctyBEq b d
  | .Tuple a, .Tuple b => rowCBEq a b
  | .Sum a, .Sum b => rowCBEq a b
  | .Array a n, .Array b m => ctyBEq a b && n == m
  | .Alias a, .Alias b => a == b
  | .OpaqueC a, .OpaqueC b => a == b
  | _, _ => false

def rowCBEq : ClassicRow → ClassicRow → Bool
  | [], [] => true
  | a :: as0, b :: bs0 => ctyBEq a b && rowCBEq as0 bs0
  | _, _ => false

end

/-- Constant values (`ConstValue` from the `ops` module, which is not in the
sample). Modelled from the spec and the uses in `typecheck.rs`: integer
constants carry a value and a width, float constants are carried as their
64 bit pattern (never inspected), tuples and sums carry nested values, and
opaque constants carry their `CustomType` (modelled by name). -/
inductive ConstValue where
  | Int (value : Nat) (width : Nat)
  | F64 (bits : Nat)
  | Tuple (xs : List ConstValue)
  | Sum (tag : Nat) (variants : ClassicRow) (val : ConstValue)
  | OpaqueV (ty : String) (payload : Nat)

/-- Modelled from the spec: `ConstValue::const_type`, the type reported for a
constant in mismatch errors. An integer of width `w` reports `I<w>`. -/
def ConstValue.const_type : ConstValue → ClassicType
  | .Int _ width => .Hashable (.Int width)
  | .F64 _ => .F64
  | .Tuple xs => .Container (.Tuple (xs.attach.map (fun x => const_type x.1)))
  | .Sum _ variants _ => .Container (.Sum variants)
  | .OpaqueV ty _ => .Container (.OpaqueC ty)
termination_by v => sizeOf v
decreasing_by
  simp only [ConstValue.Tuple.sizeOf_spec]
  exact Nat.lt_add_left 1 (List.sizeOf_lt_of_mem x.2)

/-- Errors arising from typechecking constants, from `ConstTypeError` in
`src/hugr/typecheck.rs`. -/
inductive ConstTypeError where
  | Unimplemented (t : ClassicType)
  | IntTooLarge (width : Nat) (value : Nat)
  | IntWidthTooLarge (width : Nat)
  | IntWidthInvalid (width : Nat)
  | IntWidthMismatch (expected : Nat) (actual : Nat)
  | ConstCantBeVar
  | TupleWrongLength
  | InvalidSumTag
  | TypeMismatch (expected : ClassicType) (actual : ClassicType)
  | TypeRowMismatch (expected : ClassicRow) (actual : ClassicRow)

/-- Maximum integer width: `HUGR_MAX_INT_WIDTH` (128, the width of the value
store `u128`). -/
def HUGR_MAX_INT_WIDTH : Nat := 128

/-- The valid widths `VALID_WIDTHS`: `2^n` for `n` in `[0, 7]`. -/
def VALID_WIDTHS : List Nat := (List.range 8).map (fun a => 2 ^ a)

/-- From `check_valid_width` in `src/hugr/typecheck.rs`. -/
def check_valid_width (width : Nat) : PRes ConstTypeError Unit :=
  if width > HUGR_MAX_INT_WIDTH then .err (.IntWidthTooLarge width)
  else if VALID_WIDTHS.contains width then .ok ()
  else .err (.IntWidthInvalid width)

/-- From `map_vals` in `src/hugr/typecheck.rs`, at the one instantiation used
there (`f = ClassicType::Hashable`): maps a hashable container to a classic
container, applying `f` to element types (for `Map`, to the value only). -/
def map_vals (f : HashableType → ClassicType) : ContainerH → ContainerC
  | .List t => .List (f t)
  | .Map k v => .Map k (f v)
  | .Tuple row => .Tuple (row.map f)
  | .Sum row => .Sum (row.map f)
  | .Array t n => .Array (f t) n
  | .Alias s => .Alias s
  | .OpaqueC c => .OpaqueC c

/-- The `u128` maximum, `HugrIntValueStore::MAX`. -/
def HugrIntValueStoreMAX : Nat := 2 ^ 128 - 1

/-- Termination measure helper for `typecheck_const`: the only recursive call
that keeps the value unchanged unwraps a `Hashable`-of-container type. -/
def hcFlag : ClassicType → Nat
  | .Hashable (.Container _) => 1
  | _ => 0

theorem hcFlag_le_one (t : ClassicType) : hcFlag t ≤ 1 := by
  unfold hcFlag
  split <;> omega

/-- From `typecheck_const` in `src/hugr/typecheck.rs`, arm by arm in source
order (the nested `match` on containers is flattened into compound patterns,
preserving the order of its arms). `Option::unwrap` on a missing sum variant
becomes `panicked`. -/
def typecheck_const : ClassicType → ConstValue → PRes ConstTypeError Unit
  | .Hashable (.Int exp_width), .Int value width =>
    match check_valid_width exp_width with
    | .err e => .err e
    | .panicked => .panicked
    | .ok _ =>
      match check_valid_width width with
      | .err e => .err e
      | .panicked => .panicked
      | .ok _ =>
        if exp_width == width then
          let max_value :=
            if width == HUGR_MAX_INT_WIDTH then HugrIntValueStoreMAX
            else 2 ^ width - 1
          if value ≤ max_value then .ok ()
          else .err (.IntTooLarge width value)
        else .err (.IntWidthMismatch exp_width width)
  | .F64, .F64 _ => .ok ()
  | .Container (.Tuple row), .Tuple xs =>
    if row.length ≠ xs.length then .err .TupleWrongLength
    else
      (row.zip xs).attach.foldl
        (fun acc p =>
          match acc with
          | .ok _ => typecheck_const p.1.1 p.1.2
          | other => other)
        (.ok ())
  | .Container (.Tuple row), tm =>
    .err (.TypeMismatch (.Container (.Tuple row)) tm.const_type)
  | .Container (.Sum row), .Sum tag variants val =>
    if tag > row.length then .err .InvalidSumTag
    else if !(rowCBEq row variants) then .err (.TypeRowMismatch row variants)
    else
      match variants.get? tag with
      | none => .panicked
      | some ty => typecheck_const ty val
  | .Container (.Sum row), tm =>
    .err (.TypeMismatch (.Container (.Sum row)) tm.const_type)
  | .Container (.OpaqueC ty), .OpaqueV ty_act _ =>
    if ty_act ≠ ty then
      .err (.TypeMismatch (.Container (.OpaqueC ty)) (.Container (.OpaqueC ty_act)))
    else .ok ()
  | .Container c, _ => .err (.Unimplemented (.Container c))
  | .Hashable (.Container c), tm =>
    typecheck_const (.Container (map_vals .Hashable c)) tm
  | .Graph g, _ => .err (.Unimplemented (.Graph g))
  | .Hashable .Str, _ => .err (.Unimplemented (.Hashable .Str))
  | .Hashable (.Variable _), _ => .err .ConstCantBeVar
  | ty, val => .err (.TypeMismatch ty val.const_type)
termination_by typ val => 2 * sizeOf val + hcFlag typ
decreasing_by
  · have hmem : (p.1).2 ∈ xs := (List.of_mem_zip p.2).2
    have hsz : sizeOf (p.1).2 < sizeOf xs := List.sizeOf_lt_of_mem hmem
    have hfl := hcFlag_le_one (p.1).1
    have hz : hcFlag (ClassicType.Container (ContainerC.Tuple row)) = 0 := rfl
    simp only [ConstValue.Tuple.sizeOf_spec]
    omega
  · have hfl := hcFlag_le_one ty
    have hz : hcFlag (ClassicType.Container (ContainerC.Sum row)) = 0 := rfl
    simp only [ConstValue.Sum.sizeOf_spec]
    omega
  · have hz : hcFlag (ClassicType.Container (map_vals ClassicType.Hashable c)) = 0 := rfl
    have ho : hcFlag (ClassicType.Hashable (HashableType.Container c)) = 1 := rfl
    omega

end Tck

namespace Ext

/-- An extension identifier (`ExtensionId = IdentList`): a dot-separated
identifier, modelled as its string. -/
abbrev ExtensionId := String

/-- An ordered set of extension identifiers, from `ExtensionSet` in
`src/extension.rs` (a `BTreeSet<ExtensionId>`, modelled as a finite set). -/
structure ExtensionSet where
  elts : Finset ExtensionId
deriving DecidableEq

/-- From `ExtensionSet::new`. -/
def ExtensionSet.new : ExtensionSet := ⟨∅⟩

/-- From `ExtensionSet::insert`. -/
def ExtensionSet.insert (s : ExtensionSet) (extension : ExtensionId) : ExtensionSet :=
  ⟨Insert.insert extension s.elts⟩

/-- From `ExtensionSet::contains`. -/
def ExtensionSet.contains (s : ExtensionSet) (extension : ExtensionId) : Bool :=
  extension ∈ s.elts

/-- From `ExtensionSet::is_subset`. -/
def ExtensionSet.is_subset (s other : ExtensionSet) : Bool :=
  s.elts ⊆ other.elts

/-- From `ExtensionSet::is_superset`. -/
def ExtensionSet.is_superset (s other : ExtensionSet) : Bool :=
  other.elts ⊆ s.elts

/-- From `ExtensionSet::singleton`. -/
def ExtensionSet.singleton (extension : ExtensionId) : ExtensionSet :=
  ExtensionSet.new.insert extension

/-- From `ExtensionSet::union`: `self.0.extend(other.0.iter().cloned())`. -/
def ExtensionSet.union (s other : ExtensionSet) : ExtensionSet :=
  ⟨s.elts ∪ other.elts⟩

/-- From `ExtensionSet::missing_from`: the things in `other` which are not in
`self`, `other.0.difference(&self.0)`. -/
def ExtensionSet.missing_from (s other : ExtensionSet) : ExtensionSet :=
  ⟨other.elts \ s.elts⟩

/-- Errors computing a signature, from `SignatureError` in `src/extension.rs`
(payloads simplified to names/indices; they are carried but never inspected
by the functions verified here). -/
inductive SignatureError where
  | NameMismatch (defName : String) (instName : String)
  | ExtensionMismatch (defExt : ExtensionId) (instExt : ExtensionId)
  | TypeArgMismatch (msg : String)
  | InvalidTypeArgs
  | ExtensionNotFound (ext : ExtensionId)
  | ExtensionTypeNotFound (exn : ExtensionId) (typ : String)
  | WrongBound (actual : String) (expected : String)
  | TypeVarDoesNotMatchDeclaration (actual : String) (cached : String)
  | FreeTypeVar (idx : Nat) (numDecls : Nat)
  | TypeApplyIncorrectCache (cached : String) (expected : String)
deriving DecidableEq

/-- Modelled from the spec: an `OpDef` (its source module is not in the
sample) declares a named parametric operation; `OpDef::validate` checks that
its signature function references only types defined in the registry. The
verdict of that check is carried as recorded data. -/
structure OpDef where
  name : String
  validateOutcome : Option SignatureError
deriving DecidableEq

/-- Modelled from the spec: a `TypeDef` declares a named parametric type. -/
structure TypeDef where
  name : String
deriving DecidableEq

/-- A constant value provided by an extension, from `ExtensionValue` in
`src/extension.rs` (the `ops::Const` payload is an uninterpreted token). -/
structure ExtensionValue where
  extension : ExtensionId
  name : String
  typed_value : Nat
deriving DecidableEq

/-- An extension, from `Extension` in `src/extension.rs`: a name, extension
requirements, and named type/value/operation definitions (the `HashMap`s are
modelled as association lists). -/
structure Extension where
  name : ExtensionId
  extension_reqs : ExtensionSet
  types : List (String × TypeDef)
  values : List (String × ExtensionValue)
  operations : List (String × OpDef)
deriving DecidableEq

/-- From `impl PartialEq for Extension` in `src/extension.rs`:
`self.name == other.name`. -/
def Extension.eq (a b : Extension) : Bool :=
  a.name == b.name

/-- From `Extension::validate`: ask every `OpDef` to validate itself against
the registry, propagating the first error. -/
def Extension.validate (e : Extension) : Option SignatureError :=
  e.operations.findSome? (fun p => p.2.validateOutcome)

/-- An extension registry, from `ExtensionRegistry` in `src/extension.rs`:
a `BTreeMap<ExtensionId, Extension>`, modelled as a sorted association
list. -/
structure ExtensionRegistry where
  entries : List (ExtensionId × Extension)
deriving DecidableEq

/-- Insertion into the ordered map, returning the new map and the previous
value bound to the key, mirroring `BTreeMap::insert`. -/
def mapInsert (k : ExtensionId) (v : Extension) :
    List (ExtensionId × Extension) → List (ExtensionId × Extension) × Option Extension
  | [] => ([(k, v)], none)
  | (k0, v0) :: rest =>
    if k = k0 then ((k, v) :: rest, some v0)
    else if k < k0 then ((k, v) :: (k0, v0) :: rest, none)
    else
      let (m, prev) := mapInsert k v rest
      ((k0, v0) :: m, prev)

/-- Insertion phase of `ExtensionRegistry::try_new`: insert each extension
under its name; a previous binding for the same name hits
`panic!("Multiple extensions with same name")`. -/
def tryNewInsert (exts : List (ExtensionId × Extension)) :
    List Extension → PRes (ExtensionId × SignatureError) (List (ExtensionId × Extension))
  | [] => .ok exts
  | ext :: rest =>
    let (m, prev) := mapInsert ext.name ext exts
    match prev with
    | some _ => .panicked
    | none => tryNewInsert m rest

/-- Validation phase of `ExtensionRegistry::try_new`: each inserted extension
is validated against the populated registry; the first failure is returned as
`Err((name, error))`. -/
def tryNewValidate (exts : List (ExtensionId × Extension)) :
    PRes (ExtensionId × SignatureError) ExtensionRegistry :=
  match exts.findSome? (fun p => (p.2.validate).map (fun e => (p.2.name, e))) with
  | some bad => .err bad
  | none => .ok ⟨exts⟩

/-- From `ExtensionRegistry::try_new` in `src/extension.rs`: build the map
(panicking on duplicate names), then validate every extension against the
result. -/
def ExtensionRegistry.try_new (value : List Extension) :
    PRes (ExtensionId × SignatureError) ExtensionRegistry :=
  match tryNewInsert [] value with
  | .panicked => .panicked
  | .err e => .err e
  | .ok exts => tryNewValidate exts

/-- A bare extension named `ext`. -/
def extA : Extension :=
  ⟨"ext", ⟨∅⟩, [], [], []⟩

/-- Another extension also named `ext`, differing from `extA` in its
requirements, types, values and operations. -/
def extB : Extension :=
  ⟨"ext", ExtensionSet.singleton "other", [("t", ⟨"t"⟩)],
    [("v", ⟨"ext", "v", 0⟩)], [("op", ⟨"op", none⟩)]⟩

end Ext

namespace Subg

open Simple

/-- A node of the port graph, addressed by index. -/
abbrev Node := Nat

/-- Port direction, from `portgraph::Direction`. -/
inductive Direction where
  | Incoming
  | Outgoing
deriving DecidableEq

/-- A port of a node: a direction and an offset, from `Port`. -/
structure Port where
  direction : Direction
  offset : Nat
deriving DecidableEq

/-- Operation tags, from `OpTag` (only the tags this development needs). -/
inductive OpTag where
  | ModuleOp
  | FuncDefn
  | Input
  | Output
  | Dfg
  | Cfg
  | BasicBlock
  | ExitBlock
  | Leaf
  | ConstOp
deriving DecidableEq

/-- From `OpTag::is_superset`, restricted to the flat fragment used here: the
`Dfg` tag covers exactly the `DFG` operation. -/
def OpTag.is_superset (a b : OpTag) : Bool :=
  a == b

/-- A dataflow signature: an input row and an output row (`FunctionType`;
the extension-delta component plays no role in the compared rows here). -/
structure FunctionType where
  input : List SimpleType
  output : List SimpleType
deriving DecidableEq

/-- Indexing a signature by a port, from `Signature::get`: incoming ports
index the input row, outgoing ports the output row; `None` beyond the rows
(i.e. for non-dataflow ports). -/
def FunctionType.get (sig : FunctionType) (p : Port) : Option SimpleType :=
  match p.direction with
  | .Incoming => sig.input.get? p.offset
  | .Outgoing => sig.output.get? p.offset

/-- The data the subgraph engine reads from a node's `OpType`: its tag, its
signature, and whether it has a state-order ("other") port per direction. -/
structure OpType where
  tag : OpTag
  signature : FunctionType
  hasOtherInput : Bool
  hasOtherOutput : Bool
deriving DecidableEq

/-- From `OpType::other_port_index`: the state-order port sits right after
the dataflow ports of its direction. -/
def OpType.other_port_index (op : OpType) (dir : Direction) : Option Port :=
  match dir with
  | .Incoming =>
    if op.hasOtherInput then some ⟨.Incoming, op.signature.input.length⟩ else none
  | .Outgoing =>
    if op.hasOtherOutput then some ⟨.Outgoing, op.signature.output.length⟩ else none

/-- The `HugrView` capability used by the sibling-subgraph engine: root,
node list, parents, op types, hierarchy and links. A link connects an
outgoing `(node, port)` to an incoming `(node, port)`. -/
structure Hugr where
  root : Node
  nodes : List Node
  parent : Node → Option Node
  optype : Node → OpType
  children : Node → List Node
  links : List ((Node × Port) × (Node × Port))

/-- From `HugrView::linked_ports`: all ports linked to the given one. -/
def Hugr.linked_ports (h : Hugr) (n : Node) (p : Port) : List (Node × Port) :=
  match p.direction with
  | .Incoming => (h.links.filter (fun e => e.2 == (n, p))).map (fun e => e.1)
  | .Outgoing => (h.links.filter (fun e => e.1 == (n, p))).map (fun e => e.2)

/-- From `HugrView::is_linked`. -/
def Hugr.is_linked (h : Hugr) (n : Node) (p : Port) : Bool :=
  !(h.linked_ports n p).isEmpty

/-- From `HugrView::node_inputs`: the incoming ports of a node (dataflow
ports followed by the state-order port when present). -/
def Hugr.node_inputs (h : Hugr) (n : Node) : List Port :=
  (List.range ((h.optype n).signature.input.length +
    (if (h.optype n).hasOtherInput then 1 else 0))).map (fun i => ⟨.Incoming, i⟩)

/-- From `HugrView::node_outputs`: the outgoing ports of a node. -/
def Hugr.node_outputs (h : Hugr) (n : Node) : List Port :=
  (List.range ((h.optype n).signature.output.length +
    (if (h.optype n).hasOtherOutput then 1 else 0))).map (fun i => ⟨.Outgoing, i⟩)

/-- Whether all link endpoints of a view name nodes of the view (a HUGR
well-formedness property assumed by the engine). -/
def Hugr.wellFormedLinks (h : Hugr) : Prop :=
  ∀ e ∈ h.links, e.1.1 ∈ h.nodes ∧ e.2.1 ∈ h.nodes

instance (h : Hugr) : Decidable h.wellFormedLinks := by
  unfold Hugr.wellFormedLinks
  infer_instance

/-- The incoming boundary type, from `IncomingPorts`: a partition of the
incoming boundary ports by input parameter. -/
abbrev IncomingPorts := List (List (Node × Port))

/-- The outgoing boundary type, from `OutgoingPorts`. -/
abbrev OutgoingPorts := List (Node × Port)

/-- Errors constructing a `SiblingSubgraph`, from `InvalidSubgraph`. -/
inductive InvalidSubgraph where
  | NotConvex
  | NoSharedParent
  | EmptySubgraph
  | InvalidBoundary
deriving DecidableEq

/-- Errors constructing a `SimpleReplacement`, from `InvalidReplacement`. -/
inductive InvalidReplacement where
  | InvalidDataflowGraph
  | InvalidDataflowParent
  | InvalidSignature
  | NonConvexSubgraph
deriving DecidableEq

/-- A sibling subgraph, from `SiblingSubgraph`: nodes, incoming boundary
partitions and outgoing boundary ports. -/
structure SiblingSubgraph where
  nodes : List Node
  inputs : IncomingPorts
  outputs : OutgoingPorts
deriving DecidableEq

/-- From `is_order_edge`: the port is the op's state-order port of its
direction and is linked. -/
def is_order_edge (h : Hugr) (node : Node) (port : Port) : Bool :=
  (h.optype node).other_port_index port.direction == some port && h.is_linked node port

/-- From `Itertools::all_equal` on an iterator. -/
def allEqual {α : Type} [BEq α] : List α → Bool
  | [] => true
  | x :: xs => xs.all (fun y => y == x)

/-- From `Itertools::all_unique` on an iterator. -/
def allUnique {α : Type} [DecidableEq α] : List α → Bool
  | [] => true
  | x :: xs => !(xs.contains x) && allUnique xs

/-- Whether a type may be copied: per the spec, exactly the classical types
(`Type::copyable` lives in a source file that is not in the sample). -/
def copyable (t : SimpleType) : Bool :=
  t.is_classical

/-- From `get_edge_type` in `src/hugr/views/sibling_subgraph.rs`: the common
type of all the ports, `None` if the list is empty, a port has no dataflow
type, or two ports disagree. -/
def get_edge_type (h : Hugr) (ports : List (Node × Port)) : Option SimpleType :=
  match ports with
  | [] => none
  | (n, p) :: _ =>
    match (h.optype n).signature.get p with
    | none => none
    | some edge_t =>
      if ports.all (fun q => (h.optype q.1).signature.get q.2 == some edge_t)
      then some edge_t else none

/-- From `validate_subgraph` in `src/hugr/views/sibling_subgraph.rs`, check
by check in source order. The `unimplemented!` on state-order boundary ports
becomes `panicked`. -/
def validate_subgraph (h : Hugr) (nodes : List Node)
    (inputs : IncomingPorts) (outputs : OutgoingPorts) :
    PRes InvalidSubgraph Unit :=
  if nodes.isEmpty then .err .EmptySubgraph
  else if !(allEqual (nodes.map h.parent)) then .err .NoSharedParent
  else if (inputs.flatten ++ outputs).any (fun q => is_order_edge h q.1 q.2) then
    .panicked
  else if inputs.flatten.any (fun q => q.2.direction == Direction.Outgoing) then
    .err .InvalidBoundary
  else if outputs.any (fun q => q.2.direction == Direction.Incoming) then
    .err .InvalidBoundary
  else
    let ports_inside := inputs.flatten ++ outputs
    let ports_outside := ports_inside.flatMap (fun q => h.linked_ports q.1 q.2)
    if ports_inside.any (fun q => !(nodes.contains q.1)) then .err .InvalidBoundary
    else if ports_outside.any (fun q => nodes.contains q.1) then .err .NotConvex
    else if !(allUnique inputs.flatten) then .err .InvalidBoundary
    else if inputs.any (fun p => p.isEmpty) then .err .InvalidBoundary
    else if !(inputs.all (fun ports =>
        match get_edge_type h ports with
        | none => false
        | some edge_t => !(ports.length > 1) || copyable edge_t)) then
      .err .InvalidBoundary
    else .ok ()

/-- Whether an edge is a boundary edge: its target is an incoming boundary
port or its source is an outgoing boundary port (the edge sets `B_I`/`B_O`
of the spec's formal definition). -/
def isBoundaryEdge (inputs : IncomingPorts) (outputs : OutgoingPorts)
    (e : (Node × Port) × (Node × Port)) : Bool :=
  inputs.flatten.contains e.2 || outputs.contains e.1

/-- Undirected adjacency in the graph with the boundary edges removed
(the graph `G'` of the spec's formal definition). -/
def adjGp (h : Hugr) (inputs : IncomingPorts) (outputs : OutgoingPorts)
    (u v : Node) : Bool :=
  h.links.any (fun e =>
    !(isBoundaryEdge inputs outputs e) &&
    ((e.1.1 == u && e.2.1 == v) || (e.1.1 == v && e.2.1 == u)))

/-- One step of a reachability closure: add every candidate node adjacent to
the current set. -/
def closureStep (cands : List Node) (adjB : Node → Node → Bool)
    (S : Finset Node) : Finset Node :=
  S ∪ (cands.filter (fun v => decide (∃ u ∈ S, adjB u v = true))).toFinset

/-- Iterated closure steps. -/
def closureN (cands : List Node) (adjB : Node → Node → Bool) :
    Nat → Finset Node → Finset Node
  | 0, S => S
  | k + 1, S => closureStep cands adjB (closureN cands adjB k S)

/-- Fuel sufficient to reach a fixpoint of `closureStep`. -/
def closureFuel (cands : List Node) (S : Finset Node) : Nat :=
  (S ∪ cands.toFinset).card

/-- Modelled from the spec: the node set of
`portgraph::view::Subgraph::new_subgraph` with the boundary ports of
`inputs`/`outputs` — the connected components of the graph without the
boundary edges that contain a node incident to the boundary. -/
def inducedNodes (h : Hugr) (inputs : IncomingPorts) (outputs : OutgoingPorts) :
    Finset Node :=
  let seeds := ((inputs.flatten ++ outputs).map (fun q => q.1)).toFinset
  closureN h.nodes (adjGp h inputs outputs) (closureFuel h.nodes seeds) seeds

/-- Modelled from the spec: the portgraph convex checker. The induced
subgraph is convex iff no directed path leaves and re-enters it; `R` is the
set of nodes outside `S` reachable from `S`, and convexity fails iff an edge
leads from `R` back into `S`. -/
def isConvex (h : Hugr) (S : Finset Node) : Bool :=
  let outsideSeeds := (h.nodes.filter (fun v =>
    decide (v ∉ S) &&
    h.links.any (fun e => decide (e.1.1 ∈ S) && e.2.1 == v))).toFinset
  let adjOut : Node → Node → Bool := fun u v =>
    decide (v ∉ S) && h.links.any (fun e => e.1.1 == u && e.2.1 == v)
  let R := closureN h.nodes adjOut (closureFuel h.nodes outsideSeeds) outsideSeeds
  !(h.links.any (fun e => decide (e.1.1 ∈ R) && decide (e.2.1 ∈ S)))

/-- From `SiblingSubgraph::try_new_with_checker`: compute the node set of the
subgraph from the boundary, validate it, check convexity. -/
def try_new_with_checker (inputs : IncomingPorts) (outputs : OutgoingPorts)
    (h : Hugr) : PRes InvalidSubgraph SiblingSubgraph :=
  let nodesF := inducedNodes h inputs outputs
  let nodes := h.nodes.filter (fun n => decide (n ∈ nodesF))
  match validate_subgraph h nodes inputs outputs with
  | .err e => .err e
  | .panicked => .panicked
  | .ok _ =>
    if !(isConvex h nodesF) then .err .NotConvex
    else .ok ⟨nodes, inputs, outputs⟩

/-- From `SiblingSubgraph::try_new`: construct a fresh convex checker and
defer to `try_new_with_checker`. -/
def try_new (inputs : IncomingPorts) (outputs : OutgoingPorts) (h : Hugr) :
    PRes InvalidSubgraph SiblingSubgraph :=
  try_new_with_checker inputs outputs h

/-- From `SiblingSubgraph::signature`: read the type of one representative
port per incoming partition and of every outgoing port. `none` models the
`expect` panics on an empty partition or a non-dataflow port. -/
def SiblingSubgraph.signatureOpt (sg : SiblingSubgraph) (h : Hugr) :
    Option FunctionType := do
  let input ← sg.inputs.mapM (fun part => do
    let q ← part.head?
    (h.optype q.1).signature.get q.2)
  let output ← sg.outputs.mapM (fun q => (h.optype q.1).signature.get q.2)
  pure ⟨input, output⟩

/-- A simple replacement, from `SimpleReplacement`: the subgraph, the
replacement HUGR and the two boundary maps. -/
structure SimpleReplacement where
  subgraph : SiblingSubgraph
  replacement : Hugr
  nu_inp : List ((Node × Port) × (Node × Port))
  nu_out : List ((Node × Port) × Port)

/-- From `Itertools::zip_eq`: zip two lists, panicking (modelled as `none`)
when the lengths differ. -/
def zipEq {α β : Type} (as0 : List α) (bs0 : List β) : Option (List (α × β)) :=
  if as0.length = bs0.length then some (as0.zip bs0) else none

/-- From `SiblingSubgraph::create_simple_replacement`, decision by decision
in source order: root must be tagged `Dfg`, the root must have two leading
children, the replacement signature must equal the subgraph signature; then
the boundary maps are assembled (state-order edges hit `unimplemented!`,
modelled as `panicked`). -/
def create_simple_replacement (sg : SiblingSubgraph) (h : Hugr)
    (replacement : Hugr) : PRes InvalidReplacement SimpleReplacement :=
  let rep_root := replacement.root
  let dfg_optype := replacement.optype rep_root
  if !(OpTag.Dfg.is_superset dfg_optype.tag) then .err .InvalidDataflowGraph
  else
    match (replacement.children rep_root).take 2 with
    | [rep_input, rep_output] =>
      match sg.signatureOpt h with
      | none => .panicked
      | some sgsig =>
        if dfg_optype.signature ≠ sgsig then .err .InvalidSignature
        else
          let rep_inputs_all := (replacement.node_outputs rep_input).map
            (fun p => (rep_input, p))
          let rep_outputs_all := (replacement.node_inputs rep_output).map
            (fun p => (rep_output, p))
          let isDf := fun (q : Node × Port) =>
            ((replacement.optype q.1).signature.get q.2).isSome
          let rep_inputs := rep_inputs_all.filter isDf
          let in_order_ports := rep_inputs_all.filter (fun q => !(isDf q))
          let rep_outputs := rep_outputs_all.filter isDf
          let out_order_ports := rep_outputs_all.filter (fun q => !(isDf q))
          if (in_order_ports ++ out_order_ports).any
              (fun q => is_order_edge replacement q.1 q.2) then .panicked
          else
            match zipEq rep_inputs sg.inputs, zipEq sg.outputs rep_outputs with
            | some zin, some zout =>
              let nu_inp := zin.flatMap (fun rz =>
                (replacement.linked_ports rz.1.1 rz.1.2).flatMap (fun rt =>
                  rz.2.map (fun st => (rt, st))))
              let nu_out := zout.flatMap (fun sz =>
                (h.linked_ports sz.1.1 sz.1.2).map (fun t => (t, sz.2.2)))
              .ok ⟨sg, replacement, nu_inp, nu_out⟩
            | _, _ => .panicked
    | _ => .err .InvalidDataflowParent

/-- The qubit type. -/
def QB : SimpleType := .Quantum .Qubit

/-- The incoming port at offset 0. -/
def inP0 : Port := ⟨.Incoming, 0⟩

/-- The incoming port at offset 1. -/
def inP1 : Port := ⟨.Incoming, 1⟩

/-- The outgoing port at offset 0. -/
def outP0 : Port := ⟨.Outgoing, 0⟩

/-- The outgoing port at offset 1. -/
def outP1 : Port := ⟨.Outgoing, 1⟩

/-- A single-qubit op type with the given rows and no other ports. -/
def mkOp (tag : OpTag) (input output : List SimpleType) : OpType :=
  ⟨tag, ⟨input, output⟩, false, false⟩

/-- A sibling graph holding one single-qubit gate: function root 10 with
children `Input (0) → gate (1) → Output (2)`. -/
def oneGate : Hugr where
  root := 10
  nodes := [10, 0, 1, 2]
  parent := fun n => if n == 10 then none else if n ≤ 2 then some 10 else none
  optype := fun n =>
    if n == 0 then mkOp .Input [] [QB]
    else if n == 1 then mkOp .Leaf [QB] [QB]
    else if n == 2 then mkOp .Output [QB] []
    else mkOp .FuncDefn [QB] [QB]
  children := fun n => if n == 10 then [0, 1, 2] else []
  links := [((0, outP0), (1, inP0)), ((1, outP0), (2, inP0))]

/-- A sibling graph holding a two-gate chain: function root 10 with children
`Input (0) → gate (1) → gate (2) → Output (3)`. -/
def twoGateChain : Hugr where
  root := 10
  nodes := [10, 0, 1, 2, 3]
  parent := fun n => if n == 10 then none else if n ≤ 3 then some 10 else none
  optype := fun n =>
    if n == 0 then mkOp .Input [] [QB]
    else if n == 1 then mkOp .Leaf [QB] [QB]
    else if n == 2 then mkOp .Leaf [QB] [QB]
    else if n == 3 then mkOp .Output [QB] []
    else mkOp .FuncDefn [QB] [QB]
  children := fun n => if n == 10 then [0, 1, 2, 3] else []
  links := [((0, outP0), (1, inP0)), ((1, outP0), (2, inP0)),
    ((2, outP0), (3, inP0))]

/-- A sibling graph holding one two-qubit (`cx`-like) gate on `(QB, QB)`:
function root 10 with children `Input (0)`, gate (1), `Output (2)`. -/
def cxHost : Hugr where
  root := 10
  nodes := [10, 0, 1, 2]
  parent := fun n => if n == 10 then none else if n ≤ 2 then some 10 else none
  optype := fun n =>
    if n == 0 then mkOp .Input [] [QB, QB]
    else if n == 1 then mkOp .Leaf [QB, QB] [QB, QB]
    else if n == 2 then mkOp .Output [QB, QB] []
    else mkOp .FuncDefn [QB, QB] [QB, QB]
  children := fun n => if n == 10 then [0, 1, 2] else []
  links := [((0, outP0), (1, inP0)), ((0, outP1), (1, inP1)),
    ((1, outP0), (2, inP0)), ((1, outP1), (2, inP1))]

/-- The subgraph of `cxHost` holding the gate, with its `(QB, QB) → (QB, QB)`
boundary. -/
def cxSubgraph : SiblingSubgraph :=
  ⟨[1], [[(1, inP0)], [(1, inP1)]], [(1, outP0), (1, outP1)]⟩

/-- A replacement HUGR whose root (0) is a DFG with no children at all. -/
def childlessDfg : Hugr where
  root := 0
  nodes := [0]
  parent := fun _ => none
  optype := fun _ => mkOp .Dfg [QB] [QB]
  children := fun _ => []
  links := []

/-- A replacement HUGR whose root (0) is a DFG of signature `(QB) → (QB)`
with `Input (1)` and `Output (2)` children wired through. -/
def narrowDfg : Hugr where
  root := 0
  nodes := [0, 1, 2]
  parent := fun n => if n == 0 then none else if n ≤ 2 then some 0 else none
  optype := fun n =>
    if n == 1 then mkOp .Input [] [QB]
    else if n == 2 then mkOp .Output [QB] []
    else mkOp .Dfg [QB] [QB]
  children := fun n => if n == 0 then [1, 2] else []
  links := [((1, outP0), (2, inP0))]

/- Reachability-closure lemmas: `closureN` with the fuel `closureFuel`
computes a fixpoint of `closureStep`, and a fixpoint is closed under the
adjacency relation. -/

theorem subset_closureStep (cands : List Node) (adjB : Node → Node → Bool)
    (S : Finset Node) : S ⊆ closureStep cands adjB S :=
  Finset.subset_union_left

theorem closureN_grows (cands : List Node) (adjB : Node → Node → Bool)
    (k : Nat) (S : Finset Node) : S ⊆ closureN cands adjB k S := by
  induction k with
  | zero => exact Finset.Subset.refl S
  | succ k ih => exact ih.trans (subset_closureStep cands adjB _)

theorem closureStep_subset (cands : List Node) (adjB : Node → Node → Bool)
    (S : Finset Node) : closureStep cands adjB S ⊆ S ∪ cands.toFinset := by
  unfold closureStep
  refine Finset.union_subset_union (Finset.Subset.refl S) ?_
  intro x hx
  rw [List.mem_toFinset, List.mem_filter] at hx
  rw [List.mem_toFinset]
  exact hx.1

theorem closureN_subset (cands : List Node) (adjB : Node → Node → Bool)
    (k : Nat) (S : Finset Node) :
    closureN cands adjB k S ⊆ S ∪ cands.toFinset := by
  induction k with
  | zero => exact Finset.subset_union_left
  | succ k ih =>
    have h1 : closureN cands adjB (k + 1) S ⊆ closureN cands adjB k S ∪ cands.toFinset :=
      closureStep_subset cands adjB _
    refine h1.trans ?_
    refine Finset.union_subset (ih.trans ?_) ?_
    · exact Finset.Subset.refl _
    · exact Finset.subset_union_right

theorem closureN_fix_or_card (cands : List Node) (adjB : Node → Node → Bool)
    (S : Finset Node) : ∀ k : Nat,
    closureStep cands adjB (closureN cands adjB k S) = closureN cands adjB k S ∨
      S.card + k ≤ (closureN cands adjB k S).card := by
  intro k
  induction k with
  | zero => right; simp [closureN]
  | succ k ih =>
    by_cases hfix :
        closureStep cands adjB (closureN cands adjB k S) = closureN cands adjB k S
    · left
      have hdef : closureN cands adjB (k + 1) S =
          closureStep cands adjB (closureN cands adjB k S) := rfl
      rw [hdef, hfix, hfix]
    · right
      rcases ih with hfx | hcard
      · exact absurd hfx hfix
      · have hsub : closureN cands adjB k S ⊆ closureN cands adjB (k + 1) S :=
          subset_closureStep cands adjB _
        have hne : closureN cands adjB k S ≠ closureN cands adjB (k + 1) S := by
          intro he
          exact hfix he.symm
        have hlt : (closureN cands adjB k S).card < (closureN cands adjB (k + 1) S).card :=
          Finset.card_lt_card (Finset.ssubset_iff_subset_ne.mpr ⟨hsub, hne⟩)
        omega

theorem closureN_reaches_fix (cands : List Node) (adjB : Node → Node → Bool)
    (S : Finset Node) :
    closureStep cands adjB (closureN cands adjB (closureFuel cands S) S) =
      closureN cands adjB (closureFuel cands S) S := by
  rcases closureN_fix_or_card cands adjB S (closureFuel cands S) with hfx | hcard
  · exact hfx
  · have hsub := closureN_subset cands adjB (closureFuel cands S) S
    have hcard2 : (S ∪ cands.toFinset).card ≤
        (closureN cands adjB (closureFuel cands S) S).card := by
      have hfuel : closureFuel cands S = (S ∪ cands.toFinset).card := rfl
      omega
    have heq : closureN cands adjB (closureFuel cands S) S = S ∪ cands.toFinset :=
      Finset.eq_of_subset_of_card_le hsub hcard2
    refine Finset.Subset.antisymm ?_ (subset_closureStep cands adjB _)
    have h1 := closureStep_subset cands adjB
      (closureN cands adjB (closureFuel cands S) S)
    rw [heq] at h1 ⊢
    refine h1.trans ?_
    rw [Finset.union_assoc, Finset.union_idempotent]

theorem closureStep_fix_closed (cands : List Node) (adjB : Node → Node → Bool)
    (X : Finset Node) (hfix : closureStep cands adjB X = X) :
    ∀ v ∈ cands, (∃ u ∈ X, adjB u v = true) → v ∈ X := by
  intro v hv hex
  have hmem : v ∈ closureStep cands adjB X := by
    unfold closureStep
    refine Finset.mem_union_right _ ?_
    rw [List.mem_toFinset, List.mem_filter]
    refine ⟨hv, ?_⟩
    exact decide_eq_true hex
  rwa [hfix] at hmem

theorem inducedNodes_closed (h : Hugr) (inputs : IncomingPorts)
    (outputs : OutgoingPorts) :
    ∀ v ∈ h.nodes, (∃ u ∈ inducedNodes h inputs outputs,
      adjGp h inputs outputs u v = true) → v ∈ inducedNodes h inputs outputs := by
  unfold inducedNodes
  exact closureStep_fix_closed _ _ _ (closureN_reaches_fix _ _ _)

theorem inducedNodes_seeds (h : Hugr) (inputs : IncomingPorts)
    (outputs : OutgoingPorts) :
    ∀ q ∈ inputs.flatten ++ outputs, q.1 ∈ inducedNodes h inputs outputs := by
  intro q hq
  unfold inducedNodes
  apply closureN_grows
  rw [List.mem_toFinset]
  exact List.mem_map_of_mem (fun r => r.1) hq

set_option maxHeartbeats 1600000 in
theorem validate_subgraph_ok_facts (h : Hugr) (nodes : List Node)
    (inputs : IncomingPorts) (outputs : OutgoingPorts)
    (hv : validate_subgraph h nodes inputs outputs = .ok ()) :
    nodes.isEmpty = false ∧
    (inputs.flatten.any fun q => q.2.direction == Direction.Outgoing) = false ∧
    (outputs.any fun q => q.2.direction == Direction.Incoming) = false ∧
    ((inputs.flatten ++ outputs).any fun q => !(nodes.contains q.1)) = false ∧
    (((inputs.flatten ++ outputs).flatMap fun q => h.linked_ports q.1 q.2).any
      fun q => nodes.contains q.1) = false := by
  unfold validate_subgraph at hv
  dsimp only [] at hv
  split_ifs at hv with h1 h2 h3 h4 h5 h6 h7 h8 h9 h10
  all_goals simp only [reduceCtorEq] at hv
  simp only [Bool.not_eq_true] at h1 h4 h5 h6 h7
  exact ⟨h1, h4, h5, h6, h7⟩

/-- Destructing a successful `try_new`: validation passed, the convexity
check passed, and the subgraph is the filtered induced node set with the
given boundary. -/
theorem try_new_ok_destruct (inputs : IncomingPorts) (outputs : OutgoingPorts)
    (h : Hugr) (sg : SiblingSubgraph)
    (heq : try_new inputs outputs h = .ok sg) :
    validate_subgraph h
      (h.nodes.filter fun n => decide (n ∈ inducedNodes h inputs outputs))
      inputs outputs = .ok () ∧
    isConvex h (inducedNodes h inputs outputs) = true ∧
    sg = ⟨h.nodes.filter fun n => decide (n ∈ inducedNodes h inputs outputs),
      inputs, outputs⟩ := by
  unfold try_new try_new_with_checker at heq
  dsimp only [] at heq
  cases hval : validate_subgraph h
      (h.nodes.filter fun n => decide (n ∈ inducedNodes h inputs outputs))
      inputs outputs with
  | err e => rw [hval] at heq; exact absurd heq (by simp)
  | panicked => rw [hval] at heq; exact absurd heq (by simp)
  | ok u =>
    cases u
    rw [hval] at heq
    by_cases hconv : isConvex h (inducedNodes h inputs outputs) = true
    · rw [hconv] at heq
      simp only [Bool.not_true, Bool.false_eq_true, if_false, PRes.ok.injEq] at heq
      exact ⟨rfl, hconv, heq.symm⟩
    · rw [Bool.not_eq_true] at hconv
      rw [hconv] at heq
      simp only [Bool.not_false, if_true, reduceCtorEq] at heq

/-- The boundary of a successful `try_new` consists exactly of the cut-edges
of the induced subgraph: an edge enters the subgraph from outside iff its
target port is an incoming boundary port, and leaves it iff its source port
is an outgoing boundary port. -/
theorem try_new_ok_cut_edges (inputs : IncomingPorts) (outputs : OutgoingPorts)
    (h : Hugr) (sg : SiblingSubgraph) (hwf : h.wellFormedLinks)
    (heq : try_new inputs outputs h = .ok sg) :
    ∀ e ∈ h.links,
      ((e.1.1 ∉ sg.nodes ∧ e.2.1 ∈ sg.nodes) ↔ e.2 ∈ inputs.flatten) ∧
      ((e.1.1 ∈ sg.nodes ∧ e.2.1 ∉ sg.nodes) ↔ e.1 ∈ outputs) := by
  obtain ⟨hval, hconv, hsg⟩ := try_new_ok_destruct inputs outputs h sg heq
  obtain ⟨hne, hdirIn, hdirOut, hinside, houtside⟩ :=
    validate_subgraph_ok_facts _ _ _ _ hval
  subst hsg
  have hmem : ∀ x : Node,
      x ∈ (h.nodes.filter fun n => decide (n ∈ inducedNodes h inputs outputs)) ↔
      x ∈ h.nodes ∧ x ∈ inducedNodes h inputs outputs := by
    intro x
    rw [List.mem_filter, decide_eq_true_eq]
  have hin : ∀ q ∈ inputs.flatten ++ outputs,
      q.1 ∈ (h.nodes.filter fun n => decide (n ∈ inducedNodes h inputs outputs)) := by
    intro q hq
    have hq2 := List.any_eq_false.mp hinside q hq
    by_cases hcc : q.1 ∈ (h.nodes.filter fun n =>
        decide (n ∈ inducedNodes h inputs outputs))
    · exact hcc
    · exfalso
      have hfalse : (h.nodes.filter fun n =>
          decide (n ∈ inducedNodes h inputs outputs)).contains q.1 = false := by
        rw [← Bool.not_eq_true]
        intro hx
        exact hcc (List.elem_iff.mp hx)
      rw [hfalse] at hq2
      simp at hq2
  have hout : ∀ q ∈ inputs.flatten ++ outputs, ∀ r ∈ h.linked_ports q.1 q.2,
      r.1 ∉ (h.nodes.filter fun n => decide (n ∈ inducedNodes h inputs outputs)) := by
    intro q hq r hr hcontra
    have hmemFlat : r ∈ (inputs.flatten ++ outputs).flatMap
        fun q2 => h.linked_ports q2.1 q2.2 :=
      List.mem_flatMap.mpr ⟨q, hq, hr⟩
    have h2 := List.any_eq_false.mp houtside r hmemFlat
    have h3 : (h.nodes.filter fun n =>
        decide (n ∈ inducedNodes h inputs outputs)).contains r.1 = true :=
      List.elem_iff.mpr hcontra
    rw [h3] at h2
    simp at h2
  have hdir1 : ∀ q ∈ inputs.flatten, q.2.direction = Direction.Incoming := by
    intro q hq
    have hd2 := List.any_eq_false.mp hdirIn q hq
    cases hd : q.2.direction with
    | Incoming => rfl
    | Outgoing => rw [hd] at hd2; simp at hd2
  have hdir2 : ∀ q ∈ outputs, q.2.direction = Direction.Outgoing := by
    intro q hq
    have hd2 := List.any_eq_false.mp hdirOut q hq
    cases hd : q.2.direction with
    | Outgoing => rfl
    | Incoming => rw [hd] at hd2; simp at hd2
  have hclosed := inducedNodes_closed h inputs outputs
  intro e he
  refine ⟨⟨?_, ?_⟩, ⟨?_, ?_⟩⟩
  · rintro ⟨hsrc, htgt⟩
    by_contra hni
    cases hbd : isBoundaryEdge inputs outputs e with
    | true =>
      unfold isBoundaryEdge at hbd
      rw [Bool.or_eq_true] at hbd
      rcases hbd with hbi | hbo
      · exact hni (List.mem_of_elem_eq_true hbi)
      · have hmo : e.1 ∈ outputs := List.mem_of_elem_eq_true hbo
        exact hsrc (hin e.1 (List.mem_append_right _ hmo))
    | false =>
      have hadj : adjGp h inputs outputs e.2.1 e.1.1 = true := by
        unfold adjGp
        rw [List.any_eq_true]
        refine ⟨e, he, ?_⟩
        rw [hbd]
        simp
      have h1 : e.1.1 ∈ h.nodes := (hwf e he).1
      have h2 : e.2.1 ∈ inducedNodes h inputs outputs := ((hmem e.2.1).mp htgt).2
      have h3 : e.1.1 ∈ inducedNodes h inputs outputs :=
        hclosed e.1.1 h1 ⟨e.2.1, h2, hadj⟩
      exact hsrc ((hmem e.1.1).mpr ⟨h1, h3⟩)
  · intro hflat
    have htget := hin e.2 (List.mem_append_left _ hflat)
    refine ⟨?_, htget⟩
    have hdir := hdir1 e.2 hflat
    have hlp : e.1 ∈ h.linked_ports e.2.1 e.2.2 := by
      unfold Hugr.linked_ports
      rw [hdir]
      rw [List.mem_map]
      refine ⟨e, List.mem_filter.mpr ⟨he, ?_⟩, rfl⟩
      simp
    exact hout e.2 (List.mem_append_left _ hflat) e.1 hlp
  · rintro ⟨hsrc, htgt⟩
    by_contra hni
    cases hbd : isBoundaryEdge inputs outputs e with
    | true =>
      unfold isBoundaryEdge at hbd
      rw [Bool.or_eq_true] at hbd
      rcases hbd with hbi | hbo
      · have hmi : e.2 ∈ inputs.flatten := List.mem_of_elem_eq_true hbi
        exact htgt (hin e.2 (List.mem_append_left _ hmi))
      · exact hni (List.mem_of_elem_eq_true hbo)
    | false =>
      have hadj : adjGp h inputs outputs e.1.1 e.2.1 = true := by
        unfold adjGp
        rw [List.any_eq_true]
        refine ⟨e, he, ?_⟩
        rw [hbd]
        simp
      have h1 : e.2.1 ∈ h.nodes := (hwf e he).2
      have h2 : e.1.1 ∈ inducedNodes h inputs outputs := ((hmem e.1.1).mp hsrc).2
      have h3 : e.2.1 ∈ inducedNodes h inputs outputs :=
        hclosed e.2.1 h1 ⟨e.1.1, h2, hadj⟩
      exact htgt ((hmem e.2.1).mpr ⟨h1, h3⟩)
  · intro hsout
    have hsget := hin e.1 (List.mem_append_right _ hsout)
    refine ⟨hsget, ?_⟩
    have hdir := hdir2 e.1 hsout
    have hlp : e.2 ∈ h.linked_ports e.1.1 e.1.2 := by
      unfold Hugr.linked_ports
      rw [hdir]
      rw [List.mem_map]
      refine ⟨e, List.mem_filter.mpr ⟨he, ?_⟩, rfl⟩
      simp
    exact hout e.1 (List.mem_append_right _ hsout) e.2 hlp

/-- Two ports of a partition with different dataflow types force
`get_edge_type` to `none`. -/
theorem get_edge_type_none_of_diff (h : Hugr) (part : List (Node × Port))
    (a : Node × Port) (ha : a ∈ part) (b : Node × Port) (hb : b ∈ part)
    (hd : (h.optype a.1).signature.get a.2 ≠ (h.optype b.1).signature.get b.2) :
    get_edge_type h part = none := by
  unfold get_edge_type
  cases part with
  | nil => cases ha
  | cons q rest =>
    obtain ⟨n, p⟩ := q
    cases hg : (h.optype n).signature.get p with
    | none => simp [hg]
    | some t =>
      simp only [hg]
      cases hall : ((n, p) :: rest).all
          (fun q2 => (h.optype q2.1).signature.get q2.2 == some t) with
      | false => simp [hall]
      | true =>
        exfalso
        have fa := List.all_eq_true.mp hall a ha
        have fb := List.all_eq_true.mp hall b hb
        rw [beq_iff_eq] at fa fb
        exact hd (fa.trans fb.symm)

/-- When the earlier checks pass (non-empty node set, shared parent, no
state-order boundary port, no linked peer inside the node set), any of the
boundary defects of the spec makes `validate_subgraph` return
`InvalidBoundary`. -/
theorem validate_subgraph_invalid_boundary (h : Hugr) (nodes : List Node)
    (inputs : IncomingPorts) (outputs : OutgoingPorts)
    (hne : nodes.isEmpty = false)
    (hpar : allEqual (nodes.map h.parent) = true)
    (hord : ((inputs.flatten ++ outputs).any fun q => is_order_edge h q.1 q.2) = false)
    (hpeer : (((inputs.flatten ++ outputs).flatMap fun q => h.linked_ports q.1 q.2).any
      fun q => nodes.contains q.1) = false)
    (hbad : allUnique inputs.flatten = false ∨
      [] ∈ inputs ∨
      (∃ part ∈ inputs, ∃ a ∈ part, ∃ b ∈ part,
        (h.optype a.1).signature.get a.2 ≠ (h.optype b.1).signature.get b.2) ∨
      (∃ part ∈ inputs, ∃ t, 1 < part.length ∧ get_edge_type h part = some t ∧
        copyable t = false) ∨
      (∃ q ∈ inputs.flatten, q.2.direction = Direction.Outgoing) ∨
      (∃ q ∈ outputs, q.2.direction = Direction.Incoming)) :
    validate_subgraph h nodes inputs outputs = .err .InvalidBoundary := by
  have hone :
      (inputs.flatten.any fun q => q.2.direction == Direction.Outgoing) = true ∨
      (outputs.any fun q => q.2.direction == Direction.Incoming) = true ∨
      (!allUnique inputs.flatten) = true ∨
      (inputs.any fun p => p.isEmpty) = true ∨
      (!(inputs.all fun ports =>
        match get_edge_type h ports with
        | none => false
        | some edge_t => !(ports.length > 1) || copyable edge_t)) = true := by
    rcases hbad with hb | hb | hb | hb | hb | hb
    · right; right; left
      rw [hb]
      rfl
    · right; right; right; left
      rw [List.any_eq_true]
      exact ⟨[], hb, rfl⟩
    · right; right; right; right
      obtain ⟨part, hp, a, ha, b, hbm, hdiff⟩ := hb
      rw [Bool.not_eq_true', List.all_eq_false]
      refine ⟨part, hp, ?_⟩
      rw [get_edge_type_none_of_diff h part a ha b hbm hdiff]
      simp
    · right; right; right; right
      obtain ⟨part, hp, t, hlen, hget, hcop⟩ := hb
      rw [Bool.not_eq_true', List.all_eq_false]
      refine ⟨part, hp, ?_⟩
      simp [hget, hcop, hlen]
    · left
      obtain ⟨q, hq, hdir⟩ := hb
      rw [List.any_eq_true]
      exact ⟨q, hq, by rw [hdir]; rfl⟩
    · right; left
      obtain ⟨q, hq, hdir⟩ := hb
      rw [List.any_eq_true]
      exact ⟨q, hq, by rw [hdir]; rfl⟩
  unfold validate_subgraph
  dsimp only []
  rw [hne, hpar, hord, hpeer]
  rcases hone with hc | hc | hc | hc | hc <;>
    simp [hc]

end Subg

namespace Cfg

/-- Dataflow value types for the CFG scenario. The builder's type module is
not in the sample; per the spec the scenario only needs `NAT` and predicate
(sum-over-rows) types, so the type universe is restricted to those. -/
inductive Ty where
  | NAT
  | Predicate (variants : List (List Ty))

/-- Modelled from the spec: `SimpleType::new_predicate(variants)`, the
sum-over-rows type produced by a basic block's first output. -/
def new_predicate (variants : List (List Ty)) : Ty :=
  .Predicate variants

mutual

def tyBEq : Ty → Ty → Bool
  | .NAT, .NAT => true
  | .Predicate a, .Predicate b => rowsTyBEq a b
  | _, _ => false

def rowTyBEq : List Ty → List Ty → Bool
  | [], [] => true
  | a :: as0, b :: bs0 => tyBEq a b && rowTyBEq as0 bs0
  | _, _ => false

def rowsTyBEq : List (List Ty) → List (List Ty) → Bool
  | [], [] => true
  | a :: as0, b :: bs0 => rowTyBEq a b && rowsTyBEq as0 bs0
  | _, _ => false

end

/-- Node operations for the CFG scenario (`OpType` restricted to the tags the
scenario uses). `Block` carries inputs, predicate variants and other
outputs, as `BasicBlockOp::Block` does; `Exit` carries the CFG output row. -/
inductive BOp where
  | Module
  | FuncDecl (input : List Ty) (output : List Ty)
  | FuncDefn (input : List Ty) (output : List Ty)
  | Const (t : Ty)
  | CFG (inputs : List Ty) (outputs : List Ty)
  | Block (inputs : List Ty) (predicate_variants : List (List Ty))
      (other_outputs : List Ty)
  | Exit (cfg_outputs : List Ty)
  | Input (types : List Ty)
  | Output (types : List Ty)
  | TagOp (tag : Nat) (variants : List (List Ty))
  | LoadConstant (t : Ty)

/-- A node of the mutable HUGR: operation, port counts, parent. -/
structure BNode where
  op : BOp
  nIn : Nat
  nOut : Nat
  parent : Option Nat

/-- The mutable HUGR the builders thread through (`HugrMut`): nodes addressed
by index, an ordered child list per container, and edges
`(from, fromOffset, to, toOffset)`. -/
structure BHugr where
  nodes : List BNode
  childrenMap : List (Nat × List Nat)
  edges : List (Nat × Nat × Nat × Nat)

/-- The ordered children of a container. -/
def getChildren (h : BHugr) (n : Nat) : List Nat :=
  match h.childrenMap.find? (fun p => p.1 == n) with
  | some p => p.2
  | none => []

/-- Replace the ordered children of a container. -/
def setChildren (h : BHugr) (n : Nat) (cs : List Nat) : BHugr :=
  { h with childrenMap := (n, cs) :: h.childrenMap.filter (fun p => p.1 ≠ n) }

/-- Modelled from the spec: `HugrMut::add_op` — append a fresh node as the
last child of `parent`. Returns the new node's index. -/
def addNode (h : BHugr) (parent : Nat) (op : BOp) (nIn nOut : Nat) :
    BHugr × Nat :=
  let idx := h.nodes.length
  let h1 := { h with nodes := h.nodes ++ [⟨op, nIn, nOut, some parent⟩] }
  (setChildren h1 parent (getChildren h1 parent ++ [idx]), idx)

/-- Insert `new` immediately before `sibling` in a child list. -/
def insertBefore (cs : List Nat) (sibling newN : Nat) : List Nat :=
  match cs with
  | [] => [newN]
  | c :: rest =>
    if c == sibling then newN :: c :: rest else c :: insertBefore rest sibling newN

/-- Modelled from the spec: `HugrMut::add_op_before` — append a fresh node,
placed immediately before `sibling` in their shared parent's child order. -/
def addOpBefore (h : BHugr) (sibling : Nat) (op : BOp) (nIn nOut : Nat) :
    BHugr × Nat :=
  let parent := (((h.nodes.get? sibling).bind (fun b => b.parent)).getD 0)
  let idx := h.nodes.length
  let h1 := { h with nodes := h.nodes ++ [⟨op, nIn, nOut, some parent⟩] }
  (setChildren h1 parent (insertBefore (getChildren h1 parent) sibling idx), idx)

/-- Modelled from the spec: `HugrMut::set_num_ports`. -/
def setNumPorts (h : BHugr) (n nIn nOut : Nat) : BHugr :=
  match h.nodes.get? n with
  | none => h
  | some b => { h with nodes := h.nodes.set n { b with nIn := nIn, nOut := nOut } }

/-- Modelled from the spec: `HugrMut::connect` — record an edge from the
`fromOffset`-th outgoing port of `fromN` to the `toOffset`-th incoming port
of `toN`. -/
def connect (h : BHugr) (fromN fromOffset toN toOffset : Nat) : BHugr :=
  { h with edges := h.edges ++ [(fromN, fromOffset, toN, toOffset)] }

/-- From `HugrView::num_inputs`. -/
def numInputs (h : BHugr) (n : Nat) : Nat :=
  (((h.nodes.get? n).map (fun b => b.nIn)).getD 0)

/-- From `HugrView::num_outputs`. -/
def numOutputs (h : BHugr) (n : Nat) : Nat :=
  (((h.nodes.get? n).map (fun b => b.nOut)).getD 0)

/-- Build errors, from `BuildError` (the variant the CFG builder produces). -/
inductive BuildError where
  | EntryBuiltError (cfgNode : Nat)

/-- The CFG builder state, from `CFGBuilder` in `src/builder/cfg.rs`: the
underlying HUGR, the CFG node, the pending entry-block input row (consumed
by `entry_builder`), the exit node and the number of CFG out-wires. -/
structure CFGBuilderSt where
  base : BHugr
  cfg_node : Nat
  inputs : Option (List Ty)
  exit_node : Nat
  n_out_wires : Nat

/-- Modelled from the spec: `CFGBuilder::new` — create the CFG node under
`parentN` and its pre-created exit block carrying the CFG output row. -/
def cfgBuilderNew (h : BHugr) (parentN : Nat) (inputs outputs : List Ty) :
    CFGBuilderSt :=
  let r1 := addNode h parentN (.CFG inputs outputs) inputs.length outputs.length
  let r2 := addNode r1.1 r1.2 (.Exit outputs) 0 0
  ⟨r2.1, r1.2, some inputs, r2.2, outputs.length⟩

/-- From `CFGBuilder::block_builder` in `src/builder/cfg.rs`: add a
`Block` node before the exit, give it `n_cases` outgoing (branch) ports, and
create its `Input`/`Output` children — the `Output` row is the predicate
type followed by `other_outputs`. Returns the block, its input node and its
output node. -/
def block_builder (st : CFGBuilderSt) (inputs : List Ty)
    (predicate_variants : List (List Ty)) (other_outputs : List Ty) :
    CFGBuilderSt × (Nat × Nat × Nat) :=
  let n_cases := predicate_variants.length
  let op := BOp.Block inputs predicate_variants other_outputs
  let r1 := addOpBefore st.base st.exit_node op 0 0
  let h1 := setNumPorts r1.1 r1.2 0 n_cases
  let node_outputs := new_predicate predicate_variants :: other_outputs
  let r2 := addNode h1 r1.2 (.Input inputs) 0 inputs.length
  let r3 := addNode r2.1 r1.2 (.Output node_outputs) node_outputs.length 0
  ({ st with base := r3.1 }, (r1.2, r2.2, r3.2))

/-- From `CFGBuilder::simple_block_builder`: a block whose predicate is a sum
of `n_cases` empty rows. -/
def simple_block_builder (st : CFGBuilderSt) (inputs outputs : List Ty)
    (n_cases : Nat) : CFGBuilderSt × (Nat × Nat × Nat) :=
  block_builder st inputs (List.replicate n_cases []) outputs

/-- From `CFGBuilder::entry_builder`: take the recorded CFG input row; fails
with `EntryBuiltError` when the entry block was already built. -/
def entry_builder (st : CFGBuilderSt) (predicate_variants : List (List Ty))
    (other_outputs : List Ty) :
    Except BuildError (CFGBuilderSt × (Nat × Nat × Nat)) :=
  match st.inputs with
  | none => .error (.EntryBuiltError st.cfg_node)
  | some inputs =>
    .ok (block_builder { st with inputs := none } inputs predicate_variants
      other_outputs)

/-- From `CFGBuilder::exit_block`. -/
def exit_block (st : CFGBuilderSt) : Nat :=
  st.exit_node

/-- From `CFGBuilder::branch` in `src/builder/cfg.rs`: grow the successor's
incoming port count by one and connect the `branch`-th outgoing port of the
predecessor to the fresh port. -/
def branch (st : CFGBuilderSt) (predecessor : Nat) (br : Nat)
    (successor : Nat) : CFGBuilderSt :=
  let tin := numInputs st.base successor
  let tout := numOutputs st.base successor
  let h := setNumPorts st.base successor (tin + 1) tout
  let h := connect h predecessor br successor tin
  { st with base := h }

/-- Modelled from the spec: `Dataflow::make_predicate` — add a `Tag` leaf
consuming the `tag`-th variant row and producing the predicate, wiring the
given wires to its inputs. -/
def make_predicate (h : BHugr) (parentN : Nat) (tag : Nat)
    (variants : List (List Ty)) (wires : List (Nat × Nat)) : BHugr × Nat :=
  let r := addNode h parentN (.TagOp tag variants) (variants.getD tag []).length 1
  ((wires.enum).foldl (fun hh p => connect hh p.2.1 p.2.2 r.2 p.1) r.1, r.2)

/-- Modelled from the spec: wiring `finish_with_outputs` — connect the given
wires to the consecutive incoming ports of the region's output node. -/
def wireOutputs (h : BHugr) (outN : Nat) (wires : List (Nat × Nat)) : BHugr :=
  (wires.enum).foldl (fun hh p => connect hh p.2.1 p.2.2 outN p.1) h

/-- Modelled from the spec: `Dataflow::load_const` — add a `LoadConstant`
node fed by the module-level constant. -/
def load_const (h : BHugr) (parentN : Nat) (constN : Nat) (t : Ty) :
    BHugr × Nat :=
  let r := addNode h parentN (.LoadConstant t) 1 1
  (connect r.1 constN 0 r.2 0, r.2)

/-- The operation of a node. -/
def nodeOp (h : BHugr) (n : Nat) : Option BOp :=
  (h.nodes.get? n).map (fun b => b.op)

/-- The parent of a node. -/
def nodeParent (h : BHugr) (n : Nat) : Option Nat :=
  (h.nodes.get? n).bind (fun b => b.parent)

/-- Modelled from the spec: legal parent/child operation pairs ("legal
parent/child shapes are fixed by OpType tags"). -/
def legalChild : BOp → BOp → Bool
  | .Module, .FuncDecl _ _ => true
  | .Module, .FuncDefn _ _ => true
  | .Module, .Const _ => true
  | .FuncDefn _ _, .Input _ => true
  | .FuncDefn _ _, .Output _ => true
  | .FuncDefn _ _, .CFG _ _ => true
  | .Block _ _ _, .Input _ => true
  | .Block _ _ _, .Output _ => true
  | .Block _ _ _, .TagOp _ _ => true
  | .Block _ _ _, .LoadConstant _ => true
  | .CFG _ _, .Block _ _ _ => true
  | .CFG _ _, .Exit _ => true
  | _, _ => false

/-- The input/output rows a dataflow parent imposes on its `Input`/`Output`
children (for a block, the output row is the predicate followed by the other
outputs). -/
def dataflowIO : BOp → Option (List Ty × List Ty)
  | .FuncDefn i o => some (i, o)
  | .Block i pv oo => some (i, new_predicate pv :: oo)
  | _ => none

/-- The dataflow type produced at an outgoing port. -/
def portOutTy (h : BHugr) (n off : Nat) : Option Ty :=
  match nodeOp h n with
  | some (.Input ts) => ts.get? off
  | some (.TagOp _ variants) =>
    if off == 0 then some (new_predicate variants) else none
  | some (.LoadConstant t) => if off == 0 then some t else none
  | some (.Const t) => if off == 0 then some t else none
  | some (.CFG _ outputs) => outputs.get? off
  | _ => none

/-- The dataflow type consumed at an incoming port. -/
def portInTy (h : BHugr) (n off : Nat) : Option Ty :=
  match nodeOp h n with
  | some (.Output ts) => ts.get? off
  | some (.TagOp tag variants) => (variants.get? tag).bind (fun r => r.get? off)
  | some (.LoadConstant t) => if off == 0 then some t else none
  | some (.CFG inputs _) => inputs.get? off
  | _ => none

/-- The row carried by the `fo`-th branch port of a block: its `fo`-th
predicate variant followed by its other outputs. -/
def branchRow (h : BHugr) (f fo : Nat) : Option (List Ty) :=
  match nodeOp h f with
  | some (.Block _ pv oo) => (pv.get? fo).map (fun r => r ++ oo)
  | _ => none

/-- The row expected by a control-flow successor: a block's input row, or the
CFG output row for the exit. -/
def targetRow (h : BHugr) (t : Nat) : Option (List Ty) :=
  match nodeOp h t with
  | some (.Block ti _ _) => some ti
  | some (.Exit eo) => some eo
  | _ => none

/-- Whether two nodes are siblings under a common CFG parent (their edges are
control-flow edges). -/
def sameCfgSiblings (h : BHugr) (f t : Nat) : Bool :=
  match nodeParent h f, nodeParent h t with
  | some pf, some pt =>
    pf == pt && (match nodeOp h pf with | some (.CFG _ _) => true | _ => false)
  | _, _ => false

/-- Modelled from the spec: the per-edge validator checks — endpoints exist,
offsets are within the port counts, control edges carry a branch row equal to
the successor's input row, dataflow edges have equal endpoint types. -/
def checkEdge (h : BHugr) (e : Nat × Nat × Nat × Nat) : Bool :=
  let f := e.1
  let fo := e.2.1
  let t := e.2.2.1
  let toff := e.2.2.2
  decide (f < h.nodes.length) && decide (t < h.nodes.length) &&
  decide (fo < numOutputs h f) && decide (toff < numInputs h t) &&
  (if sameCfgSiblings h f t then
    match branchRow h f fo, targetRow h t with
    | some br, some tr => rowTyBEq br tr
    | _, _ => false
  else
    match portOutTy h f fo, portInTy h t toff with
    | some a, some b => tyBEq a b
    | _, _ => false)

/-- Modelled from the spec: the per-node validator checks — the root is a
`Module`, every child is legal under its parent's operation, dataflow
parents have `Input` then `Output` children with rows equal to their
signature, and a CFG has exactly one exit child, an entry whose input row
equals the CFG input row, and exit rows equal to the CFG output row. -/
def checkNode (h : BHugr) (i : Nat) : Bool :=
  match h.nodes.get? i with
  | none => true
  | some b =>
    (match b.parent with
     | none => (match b.op with | .Module => true | _ => false)
     | some p =>
       match nodeOp h p with
       | some pop => legalChild pop b.op
       | none => false) &&
    (match dataflowIO b.op with
     | none => true
     | some io =>
       match getChildren h i with
       | c0 :: c1 :: _ =>
         (match nodeOp h c0 with
          | some (.Input ts) => rowTyBEq ts io.1
          | _ => false) &&
         (match nodeOp h c1 with
          | some (.Output ts) => rowTyBEq ts io.2
          | _ => false)
       | _ => false) &&
    (match b.op with
     | .CFG irow orow =>
       let cs := getChildren h i
       ((cs.filter (fun c =>
         match nodeOp h c with
         | some (.Exit _) => true
         | _ => false)).length == 1) &&
       (match cs.head? with
        | some c0 =>
          match nodeOp h c0 with
          | some (.Block bi _ _) => rowTyBEq bi irow
          | _ => false
        | none => false) &&
       cs.all (fun c =>
         match nodeOp h c with
         | some (.Exit eo) => rowTyBEq eo orow
         | _ => true)
     | _ => true)

/-- Modelled from the spec: the well-formedness validator over the builder
state — every node and every edge passes its checks. -/
def validateHugr (h : BHugr) : Bool :=
  (List.range h.nodes.length).all (fun i => checkNode h i) &&
  h.edges.all (fun e => checkEdge h e)

/-- The natural-number type of the scenario. -/
def NAT : Ty := Ty.NAT

/-- The basic CFG scenario of the spec (and of the `basic_cfg` test in
`src/builder/cfg.rs`): a module with `main : NAT → NAT`, a function body
holding a CFG with input row `[NAT]` and output row `[NAT]`, an entry block
with predicate variants `[NAT] | [NAT]`, a middle block with a unary
predicate, and branches entry 0 → middle, middle 0 → exit, entry 1 → exit.
`none` would indicate a build error. -/
def basicCfgBuild : Option Cfg.BHugr := do
  let h : BHugr := ⟨[⟨.Module, 0, 0, none⟩], [], []⟩
  let sum2_variants : List (List Ty) := [[NAT], [NAT]]
  -- module_builder.declare("main", NAT → NAT): node 1
  let r := addNode h 0 (.FuncDecl [NAT] [NAT]) 0 0
  -- module_builder.constant(simple_unary_predicate()): node 2
  let rc := addNode r.1 0 (.Const (new_predicate [[]])) 0 1
  let constN := rc.2
  -- define_function(&main): node 3 with Input (4) and Output (5) children
  let rf := addNode rc.1 0 (.FuncDefn [NAT] [NAT]) 0 0
  let funcN := rf.2
  let ri := addNode rf.1 funcN (.Input [NAT]) 0 1
  let funcIn := ri.2
  let ro := addNode ri.1 funcN (.Output [NAT]) 1 0
  let funcOut := ro.2
  -- cfg_builder(vec![(NAT, int)], [NAT]): CFG node 6, exit node 7,
  -- wired from the function input
  let st := cfgBuilderNew ro.1 funcN [NAT] [NAT]
  let st := { st with base := connect st.base funcIn 0 st.cfg_node 0 }
  -- entry_builder(sum2_variants, []): entry block 8, Input 9, Output 10
  let rEntry ← (entry_builder st sum2_variants []).toOption
  let st := rEntry.1
  let entryN := rEntry.2.1
  let entryIn := rEntry.2.2.1
  let entryOut := rEntry.2.2.2
  -- make_predicate(1, sum2_variants, [inw]): Tag node 11
  let rTag := make_predicate st.base entryN 1 sum2_variants [(entryIn, 0)]
  -- finish_with_outputs(sum, [])
  let st := { st with base := wireOutputs rTag.1 entryOut [(rTag.2, 0)] }
  -- simple_block_builder([NAT], [NAT], 1): middle block 12, Input 13, Output 14
  let rMid := simple_block_builder st [NAT] [NAT] 1
  let st := rMid.1
  let middleN := rMid.2.1
  let middleIn := rMid.2.2.1
  let middleOut := rMid.2.2.2
  -- load_const(&s1): LoadConstant node 15
  let rLc := load_const st.base middleN constN (new_predicate [[]])
  -- finish_with_outputs(c, [inw])
  let st := { st with base := wireOutputs rLc.1 middleOut [(rLc.2, 0), (middleIn, 0)] }
  let exitN := exit_block st
  -- the three branch calls
  let st := Cfg.branch st entryN 0 middleN
  let st := Cfg.branch st middleN 0 exitN
  let st := Cfg.branch st entryN 1 exitN
  -- func_builder.finish_with_outputs(cfg_id.outputs())
  let hFinal := connect st.base st.cfg_node 0 funcOut 0
  pure hFinal

/-- The built scenario (the build succeeds; see `basicCfgBuild`). -/
def basicCfg : BHugr :=
  basicCfgBuild.getD ⟨[], [], []⟩

/-- Node indices of the scenario, fixed by construction order. -/
def cfgNodeIdx : Nat := 6

/-- The exit node of the scenario. -/
def exitNodeIdx : Nat := 7

/-- Whether an operation is a non-exit basic block. -/
def isBlockOp : Option BOp → Bool
  | some (.Block _ _ _) => true
  | _ => false

/-- Whether an operation is the exit block. -/
def isExitOp : Option BOp → Bool
  | some (.Exit _) => true
  | _ => false

end Cfg

namespace Claims

open Simple Tck Ext Subg Cfg

/-- C4: `typecheck_const` on the spec's concrete scenarios: `I64` against
`Int(3, 64)` is `Ok`; `I32` against `Int(3, 64)` is `IntWidthMismatch(32,
64)`; `F64` against an `Int` constant is `TypeMismatch(F64, I64)`;
`Tuple[I64, F64]` against `Tuple[Int(7), F64(5.1)]` is `Ok`; and
`Tuple[I64, F64]` against a 3-element tuple is `TupleWrongLength`. -/
theorem C4_typecheck_const_scenarios :
    typecheck_const (.Hashable (.Int 64)) (.Int 3 64) = .ok () ∧
    typecheck_const (.Hashable (.Int 32)) (.Int 3 64) =
      .err (.IntWidthMismatch 32 64) ∧
    typecheck_const .F64 (.Int 3 64) =
      .err (.TypeMismatch .F64 (.Hashable (.Int 64))) ∧
    typecheck_const (.Container (.Tuple [.Hashable (.Int 64), .F64]))
      (.Tuple [.Int 7 64, .F64 77]) = .ok () ∧
    typecheck_const (.Container (.Tuple [.Hashable (.Int 64), .F64]))
      (.Tuple [.Int 5 64, .F64 77, .Int 2 64]) = .err .TupleWrongLength := by
  have cvw64 : check_valid_width 64 = .ok () := rfl
  have cvw32 : check_valid_width 32 = .ok () := rfl
  refine ⟨?_, ?_, ?_, ?_, ?_⟩
  · simp [typecheck_const, cvw64, HUGR_MAX_INT_WIDTH, HugrIntValueStoreMAX]
  · simp [typecheck_const, cvw64, cvw32]
  · simp [typecheck_const, ConstValue.const_type]
  · simp [typecheck_const, cvw64, HUGR_MAX_INT_WIDTH, HugrIntValueStoreMAX,
      List.attach, List.attachWith, List.zip]
  · simp [typecheck_const]

/-- C5: the sum-tag bound check of `typecheck_const` is off by one: a tag
equal to the number of variants slips past `tag > row.len()` and the
subsequent `variants.get(tag).unwrap()` panics, while a tag strictly greater
is correctly reported as `InvalidSumTag`. -/
theorem C5_sum_tag_off_by_one :
    typecheck_const (.Container (.Sum [.Hashable (.Int 64)]))
      (.Sum 1 [.Hashable (.Int 64)] (.Int 3 64)) = .panicked ∧
    typecheck_const (.Container (.Sum [.Hashable (.Int 64)]))
      (.Sum 2 [.Hashable (.Int 64)] (.Int 3 64)) = .err .InvalidSumTag := by
  constructor
  · simp [typecheck_const, rowCBEq, ctyBEq, hashBEq]
  · simp [typecheck_const]

/-- C6: `TypeRow::purely_linear` is true exactly when every element of the
row is linear, but `TypeRow::purely_classical` is negated in the source: it
is false on the empty row (where every element is vacuously classical) and
true on a row holding a qubit. -/
theorem C6_purely_classical_negation :
    (∀ r : TypeRow, r.purely_linear = true ↔ ∀ t ∈ r.types, t.is_linear = true) ∧
    TypeRow.purely_classical ⟨[]⟩ = false ∧
    TypeRow.purely_classical ⟨[.Quantum .Qubit]⟩ = true ∧
    TypeRow.purely_linear ⟨[]⟩ = true ∧
    TypeRow.purely_linear ⟨[.Classic .Bit, .Quantum .Qubit]⟩ = false := by
  refine ⟨?_, by decide, by decide, by decide, by decide⟩
  intro r
  unfold TypeRow.purely_linear
  exact List.all_eq_true

/-- C7: `ExtensionRegistry::try_new` on two extensions sharing the name
`ext` panics (`panic!("Multiple extensions with same name")`) instead of
returning an error value. -/
theorem C7_registry_duplicate_panic :
    ExtensionRegistry.try_new [extA, extB] = .panicked := by
  decide

/-- C8: `ExtensionSet` union is commutative, associative and idempotent;
`missing_from(A, B)` is a subset of `B`; and `A ∪ missing_from(A, B)` is a
superset of `B`. -/
theorem C8_extension_set_algebra :
    ∀ A B C : ExtensionSet,
      A.union B = B.union A ∧
      (A.union B).union C = A.union (B.union C) ∧
      A.union A = A ∧
      (A.missing_from B).is_subset B = true ∧
      (A.union (A.missing_from B)).is_superset B = true := by
  intro A B C
  refine ⟨?_, ?_, ?_, ?_, ?_⟩
  · unfold ExtensionSet.union
    rw [Finset.union_comm]
  · unfold ExtensionSet.union
    rw [Finset.union_assoc]
  · unfold ExtensionSet.union
    rw [Finset.union_self]
  · unfold ExtensionSet.is_subset ExtensionSet.missing_from
    exact decide_eq_true Finset.sdiff_subset
  · unfold ExtensionSet.is_superset ExtensionSet.union ExtensionSet.missing_from
    refine decide_eq_true ?_
    rw [Finset.union_sdiff_self_eq_union]
    exact Finset.subset_union_right

/-- C10: equality of `Extension` values compares names only: `eq` holds iff
the names agree, and in particular two extensions that differ in their
requirements, types, values and operations but share a name are equal. -/
theorem C10_extension_eq_name_only :
    (∀ a b : Extension, Extension.eq a b = true ↔ a.name = b.name) ∧
    (Extension.eq extA extB = true ∧
     extA.extension_reqs ≠ extB.extension_reqs ∧
     extA.types ≠ extB.types ∧
     extA.values ≠ extB.values ∧
     extA.operations ≠ extB.operations) := by
  constructor
  · intro a b
    unfold Extension.eq
    exact beq_iff_eq
  · refine ⟨rfl, ?_, by decide, by decide, by decide⟩
    intro hcontra
    have : ("other" : ExtensionId) ∈ (extA.extension_reqs).elts := by
      rw [hcontra]
      decide
    exact absurd this (by decide)

/-- C1: whenever `SiblingSubgraph::try_new` succeeds on a well-formed view,
the resulting subgraph passes the convexity check and its boundary is
exactly the set of cut-edges of the induced subgraph (an edge of the view
enters the subgraph iff its target port is an incoming boundary port, and
leaves it iff its source port is an outgoing boundary port); and on a
two-gate chain, a boundary made of the second gate's input and the first
gate's output yields `InvalidSubgraph::NotConvex`. -/
theorem C1_try_new_boundary_cut_edges :
    (∀ (inputs : IncomingPorts) (outputs : OutgoingPorts) (h : Subg.Hugr)
      (sg : SiblingSubgraph), h.wellFormedLinks →
      try_new inputs outputs h = .ok sg →
      isConvex h (inducedNodes h inputs outputs) = true ∧
      ∀ e ∈ h.links,
        ((e.1.1 ∉ sg.nodes ∧ e.2.1 ∈ sg.nodes) ↔ e.2 ∈ inputs.flatten) ∧
        ((e.1.1 ∈ sg.nodes ∧ e.2.1 ∉ sg.nodes) ↔ e.1 ∈ outputs)) ∧
    try_new [[(2, inP0)]] [(1, outP0)] twoGateChain = .err .NotConvex := by
  constructor
  · intro inputs outputs h sg hwf heq
    exact ⟨(try_new_ok_destruct inputs outputs h sg heq).2.1,
      try_new_ok_cut_edges inputs outputs h sg hwf heq⟩
  · decide

/-- Witness for C1: on the one-gate view, the boundary made of the gate's
input and output ports succeeds, is convex, and its cut-edge correspondence
holds. -/
theorem C1_witness_one_gate :
    isConvex oneGate (inducedNodes oneGate [[(1, inP0)]] [(1, outP0)]) = true ∧
    ∀ e ∈ oneGate.links,
      ((e.1.1 ∉ ([1] : List Node) ∧ e.2.1 ∈ ([1] : List Node)) ↔
        e.2 ∈ ([[(1, inP0)]] : IncomingPorts).flatten) ∧
      ((e.1.1 ∈ ([1] : List Node) ∧ e.2.1 ∉ ([1] : List Node)) ↔
        e.1 ∈ ([(1, outP0)] : OutgoingPorts)) :=
  C1_try_new_boundary_cut_edges.1 [[(1, inP0)]] [(1, outP0)] oneGate
    ⟨[1], [[(1, inP0)]], [(1, outP0)]⟩ (by decide) (by decide)

/-- C2: `create_simple_replacement` returns `InvalidDataflowGraph` when the
replacement root is not tagged as a DFG; `InvalidDataflowParent` when the
(DFG-rooted) replacement lacks its leading `Input`/`Output` child pair; and
`InvalidSignature` when the replacement's signature differs from the
subgraph's; in particular replacing the `(QB, QB) → (QB, QB)` subgraph with
a `(QB) → (QB)` DFG yields `InvalidSignature`. -/
theorem C2_create_replacement_error_order :
    (∀ (sg : SiblingSubgraph) (h replacement : Subg.Hugr),
      (OpTag.Dfg.is_superset (replacement.optype replacement.root).tag = false →
        create_simple_replacement sg h replacement = .err .InvalidDataflowGraph) ∧
      (OpTag.Dfg.is_superset (replacement.optype replacement.root).tag = true →
        (replacement.children replacement.root).length < 2 →
        create_simple_replacement sg h replacement = .err .InvalidDataflowParent) ∧
      (∀ sgsig : FunctionType,
        OpTag.Dfg.is_superset (replacement.optype replacement.root).tag = true →
        2 ≤ (replacement.children replacement.root).length →
        sg.signatureOpt h = some sgsig →
        (replacement.optype replacement.root).signature ≠ sgsig →
        create_simple_replacement sg h replacement = .err .InvalidSignature)) ∧
    create_simple_replacement cxSubgraph cxHost narrowDfg =
      .err .InvalidSignature := by
  constructor
  · intro sg h replacement
    refine ⟨?_, ?_, ?_⟩
    · intro hf
      unfold create_simple_replacement
      dsimp only []
      rw [hf]
      rfl
    · intro ht hlen
      unfold create_simple_replacement
      dsimp only []
      rw [ht]
      cases hc : replacement.children replacement.root with
      | nil => simp [hc]
      | cons a tail =>
        cases tail with
        | nil => simp [hc]
        | cons b rest =>
          rw [hc] at hlen
          simp only [List.length_cons] at hlen
          omega
    · intro sgsig ht hlen hsig hne
      unfold create_simple_replacement
      dsimp only []
      rw [ht]
      cases hc : replacement.children replacement.root with
      | nil => rw [hc] at hlen; simp at hlen
      | cons a tail =>
        cases tail with
        | nil => rw [hc] at hlen; simp at hlen
        | cons b rest =>
          simp only [List.take_succ_cons, List.take_zero, Bool.not_true,
            Bool.false_eq_true, if_false]
          rw [hsig]
          dsimp only []
          rw [if_pos hne]
  · rfl

/-- Witness for C2: the three error conditions at concrete inputs — a
non-DFG-rooted replacement, a childless DFG, and the narrow `(QB) → (QB)`
DFG against the `(QB, QB) → (QB, QB)` subgraph. -/
theorem C2_witness_error_cases :
    create_simple_replacement cxSubgraph cxHost oneGate =
      .err .InvalidDataflowGraph ∧
    create_simple_replacement cxSubgraph cxHost childlessDfg =
      .err .InvalidDataflowParent ∧
    create_simple_replacement cxSubgraph cxHost narrowDfg =
      .err .InvalidSignature :=
  ⟨(C2_create_replacement_error_order.1 cxSubgraph cxHost oneGate).1 (by decide),
   (C2_create_replacement_error_order.1 cxSubgraph cxHost childlessDfg).2.1
     (by decide) (by decide),
   (C2_create_replacement_error_order.1 cxSubgraph cxHost narrowDfg).2.2
     ⟨[QB, QB], [QB, QB]⟩ (by decide) (by decide) (by rfl) (by decide)⟩

/-- C3 (amended): building the basic CFG scenario succeeds validation; the
CFG has exactly three children — two basic blocks plus the exit; the exit
block ends with two incoming ports; and every `branch` call grows the
successor's incoming port count by one. -/
theorem C3_basic_cfg_scenario :
    validateHugr basicCfg = true ∧
    getChildren basicCfg cfgNodeIdx = [8, 12, 7] ∧
    ((getChildren basicCfg cfgNodeIdx).filter
      fun c => isBlockOp (nodeOp basicCfg c)).length = 2 ∧
    ((getChildren basicCfg cfgNodeIdx).filter
      fun c => isExitOp (nodeOp basicCfg c)).length = 1 ∧
    numInputs basicCfg exitNodeIdx = 2 ∧
    (∀ (st : CFGBuilderSt) (p br s : Nat), s < st.base.nodes.length →
      numInputs (Cfg.branch st p br s).base s = numInputs st.base s + 1) := by
  refine ⟨by decide, by decide, by decide, by decide, by decide, ?_⟩
  intro st p br s hs
  obtain ⟨b, hb⟩ : ∃ b, st.base.nodes.get? s = some b := by
    rw [List.get?_eq_get hs]
    exact ⟨_, rfl⟩
  unfold Cfg.branch Cfg.connect Cfg.setNumPorts numInputs
  rw [hb]
  dsimp only []
  rw [List.get?_set_eq_of_lt _ hs]
  rfl

/-- Witness for C3: a concrete `branch` call — the third branch call of the
scenario grows the exit's incoming port count from 1 to 2. -/
theorem C3_witness_branch_grows :
    (0 : Nat) < 1 ∧
    numInputs (Cfg.branch ⟨⟨[⟨.Exit [NAT], 1, 0, none⟩], [], []⟩, 0, none, 0, 1⟩
      8 1 0).base 0 =
      numInputs (⟨[⟨BOp.Exit [NAT], 1, 0, none⟩], [], []⟩ : BHugr) 0 + 1 :=
  ⟨Nat.zero_lt_one,
    C3_basic_cfg_scenario.2.2.2.2.2
      ⟨⟨[⟨.Exit [NAT], 1, 0, none⟩], [], []⟩, 0, none, 0, 1⟩ 8 1 0
      Nat.zero_lt_one⟩

/-- Counterexample for C3 as stated: the scenario's CFG has two (not three)
non-exit block children. -/
theorem C3_counterexample_two_blocks :
    ((getChildren basicCfg cfgNodeIdx).filter
      fun c => isBlockOp (nodeOp basicCfg c)).length = 2 ∧
    ¬(((getChildren basicCfg cfgNodeIdx).filter
      fun c => isBlockOp (nodeOp basicCfg c)).length = 3) := by
  refine ⟨by decide, by decide⟩

/-- C9 (amended): provided the induced node set is non-empty, all its nodes
share a parent, no boundary port is a linked state-order port, and no linked
peer of a boundary port lies inside the node set, `try_new` returns
`InvalidSubgraph::InvalidBoundary` whenever the boundary exhibits any of the
defects: a duplicated incoming port, an empty partition, two ports of one
partition with different types, a partition of size over one with a
non-copyable type, an incoming port with `Outgoing` direction, or an
outgoing port with `Incoming` direction. -/
theorem C9_invalid_boundary_conditions (h : Subg.Hugr)
    (inputs : IncomingPorts) (outputs : OutgoingPorts)
    (hne : (h.nodes.filter fun n =>
      decide (n ∈ inducedNodes h inputs outputs)).isEmpty = false)
    (hpar : allEqual ((h.nodes.filter fun n =>
      decide (n ∈ inducedNodes h inputs outputs)).map h.parent) = true)
    (hord : ((inputs.flatten ++ outputs).any
      fun q => is_order_edge h q.1 q.2) = false)
    (hpeer : (((inputs.flatten ++ outputs).flatMap
      fun q => h.linked_ports q.1 q.2).any fun q =>
      (h.nodes.filter fun n =>
        decide (n ∈ inducedNodes h inputs outputs)).contains q.1) = false)
    (hbad : allUnique inputs.flatten = false ∨
      [] ∈ inputs ∨
      (∃ part ∈ inputs, ∃ a ∈ part, ∃ b ∈ part,
        (h.optype a.1).signature.get a.2 ≠ (h.optype b.1).signature.get b.2) ∨
      (∃ part ∈ inputs, ∃ t, 1 < part.length ∧ get_edge_type h part = some t ∧
        copyable t = false) ∨
      (∃ q ∈ inputs.flatten, q.2.direction = Direction.Outgoing) ∨
      (∃ q ∈ outputs, q.2.direction = Direction.Incoming)) :
    try_new inputs outputs h = .err .InvalidBoundary := by
  have hv := validate_subgraph_invalid_boundary h
    (h.nodes.filter fun n => decide (n ∈ inducedNodes h inputs outputs))
    inputs outputs hne hpar hord hpeer hbad
  unfold try_new try_new_with_checker
  dsimp only []
  rw [hv]

/-- Witness for C9: on the one-gate view, repeating the gate's input port in
two partitions yields `InvalidBoundary`. -/
theorem C9_witness_duplicate_input :
    try_new [[(1, inP0)], [(1, inP0)]] [(1, outP0)] oneGate =
      .err .InvalidBoundary :=
  C9_invalid_boundary_conditions oneGate [[(1, inP0)], [(1, inP0)]]
    [(1, outP0)] (by decide) (by decide) (by decide) (by decide)
    (.inl (by decide))

/-- Counterexample for C9 as stated: a boundary with an empty partition and
nothing else induces an empty subgraph, and `try_new` reports
`EmptySubgraph`, not an invalid-boundary error. -/
theorem C9_counterexample_empty_partition :
    try_new [[]] [] oneGate = .err .EmptySubgraph ∧
    ¬(try_new [[]] [] oneGate = .err .InvalidBoundary) := by
  refine ⟨by decide, by decide⟩

end Claims

end Hugr
